import Mathlib

/-!
# ThreadPool: a shallow embedding of `ThreadPool.h` / `ThreadPool.cpp`

The C++ objects become Lean structures, member functions become functions on
those structures, and the threads of the program become a transition system
whose steps are exactly the critical sections (and atomic updates) of the
source.  A result of `none` always stands for undefined behaviour of the C++
program (a null or dangling dereference, `front()` on an empty queue);
a blocking call that cannot proceed is also `none` where this is said.
-/

namespace ThreadPoolModel

/-! ## Machine integers -/

/-- The largest `int` (`INT32_MAX`). -/
def INT32_MAX : Int := 2147483647

/-- Two's-complement wrap-around of a 32-bit signed integer: the result of
`++` / `--` on a `std::atomic_int`. -/
def wrap32 (x : Int) : Int := (x + 2147483648) % 4294967296 - 2147483648

/-- The conversion `(size_t) x` of an `int` on a 64-bit target. -/
def toSizeT (x : Int) : Nat := (x % 18446744073709551616).toNat

/-! ## `Any`: the type-erased value box -/

/-- The C++ object types `Any`'s templates are instantiated with: a code for
every type, the values of each type, and the code of `const char*` together
with the value a string literal denotes (needed for `return "";`). -/
structure CppUniverse where
  Ty : Type
  Val : Ty → Type
  decTy : DecidableEq Ty
  decVal : (t : Ty) → DecidableEq (Val t)
  constCharPtr : Ty
  literal : String → Val constCharPtr

instance (U : CppUniverse) : DecidableEq U.Ty := U.decTy

instance (U : CppUniverse) (t : U.Ty) : DecidableEq (U.Val t) := U.decVal t

/-- The class `Any`: `base_` is a `unique_ptr<Base>`, either null or owning a
`Derive<T>` object that stores `data_ : T`. -/
structure Any (U : CppUniverse) where
  base_ : Option ((T : U.Ty) × U.Val T)
deriving DecidableEq

namespace Any

variable {U : CppUniverse}

/-- Source `Any() = default`: the box holds nothing (`base_` is null). -/
def default : Any U := ⟨none⟩

/-- Source `template<typename T> Any(T data)`: `base_(std::make_unique<Derive<T>>(data))`. -/
def ofData (T : U.Ty) (data : U.Val T) : Any U := ⟨some ⟨T, data⟩⟩

/-- Source `template<typename T> T cast_()`: the `dynamic_cast` to `Derive<T>*` yields
null unless the owned object is a `Derive<T>`; null throws
`"type is unmatch!"`, otherwise `data_` is returned. -/
def cast_ (a : Any U) (T : U.Ty) : Except String (U.Val T) :=
  match a.base_ with
  | none => Except.error "type is unmatch!"
  | some ⟨T', data_⟩ =>
    if h : T' = T then Except.ok (h ▸ data_) else Except.error "type is unmatch!"

end Any

/-! ## `Semaphore` -/

/-- The class `Semaphore`; the mutex and the condition variable only make the
two member functions atomic and are not state of the model. -/
structure Semaphore where
  resLimit_ : Int
deriving DecidableEq

namespace Semaphore

/-- Source `Semaphore(int limit = 0)` with the default argument. -/
def init : Semaphore := ⟨0⟩

/-- Source `wait()`: blocks (`none`) until `resLimit_ > 0`, then takes one unit. -/
def wait (s : Semaphore) : Option Semaphore :=
  if s.resLimit_ > 0 then some ⟨s.resLimit_ - 1⟩ else none

/-- Source `post()`: adds one unit. -/
def post (s : Semaphore) : Semaphore := ⟨s.resLimit_ + 1⟩

end Semaphore

/-! ## `Result` and `Task` -/

/-- The class `Result`.  `task_` is the address of the task (an index into the
task store). -/
structure Result (U : CppUniverse) where
  any_ : Any U
  sem_ : Semaphore
  task_ : Nat
  isValid_ : Bool
deriving DecidableEq

/-- The class `Task`: `run` is the value the task's override of the virtual
`run()` returns, `result_` the `Result*` back-pointer (`none` is `nullptr`,
`some r` the address of a `Result`, an index into the result store). -/
structure Task (U : CppUniverse) where
  run : Any U
  result_ : Option Nat
deriving DecidableEq

/-- The objects tasks and results point to: addresses are list indices. -/
structure Heap (U : CppUniverse) where
  tasks : List (Task U)
  results : List (Result U)
deriving DecidableEq

namespace Result

variable {U : CppUniverse}

/-- Source `Result::setVal`: `any_ = std::move(any); sem_.post();`. -/
def setVal (r : Result U) (any : Any U) : Result U :=
  { r with any_ := any, sem_ := r.sem_.post }

/-- Source `Result::get`: an invalid result returns `""` (an `Any` built from a
`const char*`) at once; a valid one waits on the semaphore (`none` while it
blocks) and then moves `any_` out, which leaves `any_` empty. -/
def get (r : Result U) : Option (Any U × Result U) :=
  if !r.isValid_ then
    some (Any.ofData U.constCharPtr (U.literal ""), r)
  else
    match r.sem_.wait with
    | none => none
    | some sem => some (r.any_, { r with any_ := Any.default, sem_ := sem })

/-- Source `Result::Result(task, isValid)`: the new object (placed at the next free
address) is initialised and `task_->setResult(this)` stores its address in the
task.  A task address that names no task is a null or dangling dereference. -/
def construct (h : Heap U) (task : Nat) (isValid : Bool) : Option (Heap U × Nat) :=
  match h.tasks[task]? with
  | none => none
  | some t =>
    let this := h.results.length
    some ({ tasks := h.tasks.set task { t with result_ := some this },
            results := h.results ++
              [{ any_ := Any.default, sem_ := Semaphore.init, task_ := task,
                 isValid_ := isValid }] }, this)

end Result

namespace Task

variable {U : CppUniverse}

/-- Source `Task::Task()`: `result_(nullptr)`. -/
def init (run : Any U) : Task U := { run := run, result_ := none }

/-- Source `Task::exec`: `if (result_ != nullptr) result_->setVal(run());`. -/
def exec (h : Heap U) (task : Nat) : Option (Heap U) :=
  match h.tasks[task]? with
  | none => none
  | some t =>
    match t.result_ with
    | none => some h
    | some r =>
      match h.results[r]? with
      | none => none
      | some res => some { h with results := h.results.set r (res.setVal t.run) }

end Task

/-! ## `Thread` and the worker registry -/

/-- The enum `PoolMode`. -/
inductive PoolMode
  | MODE_FIXED
  | MODE_CACHED
deriving DecidableEq

/-- The class `Thread`.  `func_` is in every `Thread` of the program the pool's
`threadFunc`, so only the logical id is state. -/
structure Thread where
  threadId_ : Int
deriving DecidableEq

/-- The scheduling-loop position of one operating-system thread running
`threadFunc(threadId)`: `idle` is anywhere between the loop head and the end of
the `while (taskSize_ == 0)` wait, `busy task` is between the release of the
queue lock and `idleThreadSize_++`, `exited` is after `return`. -/
inductive WorkerState
  | idle
  | busy (task : Nat)
  | exited
deriving DecidableEq

/-- One operating-system thread created by `Thread::start`, with the
`threadId` argument its `threadFunc` call received. -/
structure Worker where
  threadId : Int
  state : WorkerState
deriving DecidableEq

namespace Thread

/-- Source `Thread::Thread(func)`: `threadId_(generateId_)`.  The static counter
`generateId_` is read and not written. -/
def construct (generateId_ : Int) : Thread := ⟨generateId_⟩

/-- Source `Thread::getId`. -/
def getId (t : Thread) : Int := t.threadId_

/-- Source `Thread::start`: `std::thread t(func_, threadId_); t.detach();` creates one
operating-system thread that runs `threadFunc(threadId_)`. -/
def start (t : Thread) : Worker := ⟨t.threadId_, WorkerState.idle⟩

end Thread

/-- The member `threads_ : std::unordered_map<int, std::unique_ptr<Thread>>`,
as an association list.  Every entry the program keeps owns a `Thread`: the only
place that could store a null pointer is `threads_[k]` on an absent key, which
the program dereferences on the spot (`mapAt`). -/
abbrev ThreadMap := List (Int × Thread)

namespace ThreadMap

/-- Source `threads_.emplace(k, std::move(ptr))`: inserts unless the key is present. -/
def emplace (m : ThreadMap) (k : Int) (ptr : Thread) : ThreadMap :=
  if (m.lookup k).isSome then m else m ++ [(k, ptr)]

/-- Source `threads_.erase(k)`. -/
def erase (m : ThreadMap) (k : Int) : ThreadMap := m.filter (fun e => e.1 != k)

/-- Source `threads_[k]->...`: the `Thread` owned under key `k`; on an absent key
`operator[]` inserts a null pointer and `->` dereferences it (`none`). -/
def mapAt (m : ThreadMap) (k : Int) : Option Thread := m.lookup k

/-- Source `threads_.size()`. -/
def size (m : ThreadMap) : Nat := m.length

end ThreadMap

/-! ## `ThreadPool` -/

/-- The constant `TASK_MAX_THRESHHOLD`. -/
def TASK_MAX_THRESHHOLD : Int := INT32_MAX

/-- The constant `THREAD_MAX_THRESHHOLD`. -/
def THREAD_MAX_THRESHHOLD : Int := 10

/-- The constant `THREAD_MAX_IDLE_TIME`, in seconds. -/
def THREAD_MAX_IDLE_TIME : Int := 60

/-- The data members of the class `ThreadPool` (the mutex and the condition
variables are what makes the steps below atomic; they carry no data).
`initThreadSize_` is a `size_t`, the three counters are `std::atomic_int`, the
two thresholds are `int`; the queue holds task addresses. -/
structure ThreadPool where
  threads_ : ThreadMap
  initThreadSize_ : Nat
  curThreadSize_ : Int
  threadSizeThreshHold_ : Int
  idleThreadSize_ : Int
  taskQueue_ : List Nat
  taskSize_ : Int
  taskQueMaxThreshHold_ : Int
  poolMode_ : PoolMode
  isPoolRunning_ : Bool
deriving DecidableEq

namespace ThreadPool

/-- Source `ThreadPool::ThreadPool()`. -/
def init : ThreadPool :=
  { threads_ := [],
    initThreadSize_ := 0,
    taskSize_ := 0,
    idleThreadSize_ := 0,
    curThreadSize_ := 0,
    taskQueMaxThreshHold_ := TASK_MAX_THRESHHOLD,
    threadSizeThreshHold_ := THREAD_MAX_THRESHHOLD,
    taskQueue_ := [],
    poolMode_ := PoolMode.MODE_FIXED,
    isPoolRunning_ := false }

/-- Source `ThreadPool::checkRunningState`. -/
def checkRunningState (p : ThreadPool) : Bool := p.isPoolRunning_

/-- Source `ThreadPool::setMode`. -/
def setMode (p : ThreadPool) (mode : PoolMode) : ThreadPool :=
  if p.checkRunningState then p else { p with poolMode_ := mode }

/-- Source `ThreadPool::setTaskQueMaxThreshHold`. -/
def setTaskQueMaxThreshHold (p : ThreadPool) (threshhold : Int) : ThreadPool :=
  { p with taskQueMaxThreshHold_ := threshhold }

/-- Source `ThreadPool::setThreadSizeThreashHold_`. -/
def setThreadSizeThreashHold_ (p : ThreadPool) (threashhold : Int) : ThreadPool :=
  if p.checkRunningState then p
  else if p.poolMode_ = PoolMode.MODE_CACHED then
    { p with threadSizeThreshHold_ := threashhold }
  else p

/-- The predicate of `notFull_.wait_for` in `submitTask`:
`taskQueue_.size() < (size_t)taskQueMaxThreshHold_`. -/
def notFull (p : ThreadPool) : Bool :=
  decide (p.taskQueue_.length < toSizeT p.taskQueMaxThreshHold_)

/-- The predicate of `exitCond_.wait` in the destructor:
`threads_.size() == 0`. -/
def drained (p : ThreadPool) : Bool := p.threads_.size == 0

end ThreadPool

/-! ## The whole program state -/

/-- Everything the pool's threads share: the pool object, the static
`Thread::generateId_`, the operating-system threads started so far, and the
task and result objects. -/
structure Sys (U : CppUniverse) where
  pool : ThreadPool
  generateId_ : Int
  workers : List Worker
  heap : Heap U
deriving DecidableEq

namespace Sys

variable {U : CppUniverse}

/-- The program state right after `ThreadPool pool;`: `int Thread::generateId_ = 0`,
no thread started, and the given task objects. -/
def init (tasks : List (Task U)) : Sys U :=
  { pool := ThreadPool.init, generateId_ := 0, workers := [],
    heap := { tasks := tasks, results := [] } }

/-! ### `ThreadPool::start` -/

/-- The first loop of `start`, with `k` iterations left: construct a `Thread`
and `threads_.emplace(ptr->getId(), std::move(ptr))`. -/
def startCreate (generateId_ : Int) : Nat → ThreadMap → ThreadMap
  | 0, threads_ => threads_
  | k + 1, threads_ =>
    let ptr := Thread.construct generateId_
    let threadId := ptr.getId
    startCreate generateId_ k (threads_.emplace threadId ptr)

/-- The second loop of `start` at index `i` with `k` iterations left:
`threads_[i]->start(); idleThreadSize_++;`. -/
def startLaunch (threads_ : ThreadMap) :
    Nat → Nat → List Worker × Int → Option (List Worker × Int)
  | _, 0, acc => some acc
  | i, k + 1, (workers, idleThreadSize_) =>
    match threads_.mapAt (i : Int) with
    | none => none
    | some t => startLaunch threads_ (i + 1) k (workers ++ [t.start], wrap32 (idleThreadSize_ + 1))

/-- Source `ThreadPool::start(initThreadSize)`.  A negative argument makes
`initThreadSize_` (a `size_t`) huge, and the loop counter `int i` overflows
before reaching it: `none`. -/
def start (s : Sys U) (initThreadSize : Int) : Option (Sys U) :=
  if initThreadSize < 0 then none
  else
    let n := initThreadSize.toNat
    let threads_ := startCreate s.generateId_ n s.pool.threads_
    match startLaunch threads_ 0 n (s.workers, s.pool.idleThreadSize_) with
    | none => none
    | some (workers, idleThreadSize_) =>
      some { s with
        pool := { s.pool with
          isPoolRunning_ := true,
          initThreadSize_ := n,
          curThreadSize_ := initThreadSize,
          threads_ := threads_,
          idleThreadSize_ := idleThreadSize_ },
        workers := workers }

/-! ### `ThreadPool::submitTask` -/

/-- The Cached-mode block of `submitTask`, run after the enqueue: when
`poolMode_ == MODE_CACHED && taskSize_ > idleThreadSize_ &&
curThreadSize_ < threadSizeThreshHold_` a `Thread` is constructed, emplaced
under its id, `threads_[threadId]->start()` runs, and `curThreadSize_++`. -/
def spawnIfNeeded (s : Sys U) : Option (Sys U) :=
  if s.pool.poolMode_ = PoolMode.MODE_CACHED ∧ s.pool.taskSize_ > s.pool.idleThreadSize_ ∧
      s.pool.curThreadSize_ < s.pool.threadSizeThreshHold_ then
    let ptr := Thread.construct s.generateId_
    let threadId := ptr.getId
    let threads_ := s.pool.threads_.emplace threadId ptr
    match threads_.mapAt threadId with
    | none => none
    | some t =>
      some { s with
        pool := { s.pool with
          threads_ := threads_,
          curThreadSize_ := wrap32 (s.pool.curThreadSize_ + 1) },
        workers := s.workers ++ [t.start] }
  else some s

/-- The enqueue of `submitTask`: `taskQueue_.emplace(sp); taskSize_++;`. -/
def enqueue (s : Sys U) (sp : Nat) : Sys U :=
  { s with
    pool := { s.pool with
      taskQueue_ := s.pool.taskQueue_ ++ [sp],
      taskSize_ := wrap32 (s.pool.taskSize_ + 1) } }

/-- Source `ThreadPool::submitTask(sp)`, as one atomic step taken at the moment
`notFull_.wait_for(lock, 1s, pred)` returns: it returns `pred()`, which is
false only when the second has run out with the queue still full.  The value
returned is the address of the `Result` constructed in the caller's frame. -/
def submitTask (s : Sys U) (sp : Nat) : Option (Sys U × Nat) :=
  if !s.pool.notFull then
    match Result.construct s.heap sp false with
    | none => none
    | some (heap, res) => some ({ s with heap := heap }, res)
  else
    match spawnIfNeeded (s.enqueue sp) with
    | none => none
    | some s2 =>
      match Result.construct s2.heap sp true with
      | none => none
      | some (heap, res) => some ({ s2 with heap := heap }, res)

/-! ### `ThreadPool::threadFunc` -/

/-- Worker `w` ends: `threads_.erase(threadId)` and `return`. -/
def deregister (s : Sys U) (w : Nat) (threadId : Int) : Sys U :=
  { s with
    pool := { s.pool with threads_ := s.pool.threads_.erase threadId },
    workers := s.workers.set w ⟨threadId, WorkerState.exited⟩ }

/-- Worker `w` retires after its idle timeout: `threads_.erase(threadId);
curThreadSize_--; idleThreadSize_--;` and `return`. -/
def retire (s : Sys U) (w : Nat) (threadId : Int) : Sys U :=
  { s with
    pool := { s.pool with
      threads_ := s.pool.threads_.erase threadId,
      curThreadSize_ := wrap32 (s.pool.curThreadSize_ - 1),
      idleThreadSize_ := wrap32 (s.pool.idleThreadSize_ - 1) },
    workers := s.workers.set w ⟨threadId, WorkerState.exited⟩ }

/-- Worker `w` leaves the `while (taskSize_ == 0)` loop and takes a task
(lines `idleThreadSize_--` to the end of the locked block); it stays where it
is while `taskSize_ == 0`.  The second component is the task taken. -/
def fetch (s : Sys U) (w : Nat) : Option (Sys U × Option Nat) :=
  match s.workers[w]? with
  | some ⟨threadId, WorkerState.idle⟩ =>
    if s.pool.taskSize_ = 0 then some (s, none)
    else
      match s.pool.taskQueue_ with
      | [] => none
      | task :: rest =>
        some ({ s with
          pool := { s.pool with
            idleThreadSize_ := wrap32 (s.pool.idleThreadSize_ - 1),
            taskQueue_ := rest,
            taskSize_ := wrap32 (s.pool.taskSize_ - 1) },
          workers := s.workers.set w ⟨threadId, WorkerState.busy task⟩ }, some task)
  | _ => some (s, none)

/-- Worker `w` runs its task and becomes idle again: `task->exec();
idleThreadSize_++;`.  The second component is the task executed. -/
def complete (s : Sys U) (w : Nat) : Option (Sys U × Option Nat) :=
  match s.workers[w]? with
  | some ⟨threadId, WorkerState.busy task⟩ =>
    match Task.exec s.heap task with
    | none => none
    | some heap =>
      some ({ s with
        heap := heap,
        pool := { s.pool with idleThreadSize_ := wrap32 (s.pool.idleThreadSize_ + 1) },
        workers := s.workers.set w ⟨threadId, WorkerState.idle⟩ }, some task)
  | _ => some (s, none)

/-- Worker `w`, waiting in Cached mode, sees `notEmpty_.wait_for` time out
after having been idle for `dur` seconds (the lock was released during the
wait, so `taskSize_` need no longer be 0): it retires when
`dur >= THREAD_MAX_IDLE_TIME && curThreadSize_ > initThreadSize_` (an `int`
against a `size_t`), otherwise it goes on to the running-flag check and leaves
if the pool is shutting down. -/
def waitTimeout (s : Sys U) (w : Nat) (dur : Int) : Sys U :=
  match s.workers[w]? with
  | some ⟨threadId, WorkerState.idle⟩ =>
    if s.pool.poolMode_ = PoolMode.MODE_CACHED then
      if dur ≥ THREAD_MAX_IDLE_TIME ∧ toSizeT s.pool.curThreadSize_ > s.pool.initThreadSize_ then
        retire s w threadId
      else if !s.pool.isPoolRunning_ then deregister s w threadId
      else s
    else s
  | _ => s

/-- Worker `w` is woken without a timeout inside the wait loop, or is at the
loop head `while (isPoolRunning_)`: if the pool is no longer running it
deregisters and returns (both shutdown exits of `threadFunc` do exactly
`threads_.erase(threadId); exitCond_.notify_all();`). -/
def wakeup (s : Sys U) (w : Nat) : Sys U :=
  match s.workers[w]? with
  | some ⟨threadId, WorkerState.idle⟩ =>
    if !s.pool.isPoolRunning_ then deregister s w threadId else s
  | _ => s

/-! ### `ThreadPool::~ThreadPool` -/

/-- The first two statements of the destructor: `isPoolRunning_ = false;
notEmpty_.notify_all();`. -/
def shutdown (s : Sys U) : Sys U :=
  { s with pool := { s.pool with isPoolRunning_ := false } }

/-- The rest of the destructor: `exitCond_.wait(lock, threads_.size() == 0)`.
`none` while the wait blocks; when it returns, destruction completes. -/
def destructorWait (s : Sys U) : Option (Sys U) :=
  if s.pool.drained then some s else none

/-! ### Interleavings -/

end Sys

/-- One atomic action of some thread of the program. -/
inductive Event
  | submit (task : Nat)
  | fetch (w : Nat)
  | complete (w : Nat)
  | waitTimeout (w : Nat) (dur : Int)
  | wakeup (w : Nat)
  | shutdown
deriving DecidableEq

/-- What an action did to a task. -/
inductive Obs
  | accepted (task : Nat)
  | rejected (task : Nat)
  | fetched (w : Nat) (task : Nat)
  | executed (w : Nat) (task : Nat)
  | silent
deriving DecidableEq

namespace Sys

variable {U : CppUniverse}

/-- The outcome of a submission, read off the `Result` it returned. -/
def submitObs (s : Sys U) (task : Nat) (res : Nat) : Obs :=
  match s.heap.results[res]? with
  | some r => if r.isValid_ then Obs.accepted task else Obs.rejected task
  | none => Obs.silent

/-- One step of the program. -/
def step (s : Sys U) : Event → Option (Sys U × Obs)
  | Event.submit task =>
    match s.submitTask task with
    | none => none
    | some (s1, res) => some (s1, submitObs s1 task res)
  | Event.fetch w =>
    match s.fetch w with
    | none => none
    | some (s1, some task) => some (s1, Obs.fetched w task)
    | some (s1, none) => some (s1, Obs.silent)
  | Event.complete w =>
    match s.complete w with
    | none => none
    | some (s1, some task) => some (s1, Obs.executed w task)
    | some (s1, none) => some (s1, Obs.silent)
  | Event.waitTimeout w dur => some (s.waitTimeout w dur, Obs.silent)
  | Event.wakeup w => some (s.wakeup w, Obs.silent)
  | Event.shutdown => some (s.shutdown, Obs.silent)

/-- A run of the program along a schedule, with what it did to tasks. -/
def run (s : Sys U) : List Event → Option (Sys U × List Obs)
  | [] => some (s, [])
  | e :: es =>
    match s.step e with
    | none => none
    | some (s1, o) =>
      match run s1 es with
      | none => none
      | some (s2, os) => some (s2, o :: os)

end Sys

/-- The tasks accepted by submissions, in order. -/
def acceptedTasks : List Obs → List Nat
  | [] => []
  | Obs.accepted task :: os => task :: acceptedTasks os
  | _ :: os => acceptedTasks os

/-- The tasks taken from the queue, in order. -/
def fetchedTasks : List Obs → List Nat
  | [] => []
  | Obs.fetched _ task :: os => task :: fetchedTasks os
  | _ :: os => fetchedTasks os

/-- The tasks executed, in order of completion. -/
def executedTasks : List Obs → List Nat
  | [] => []
  | Obs.executed _ task :: os => task :: executedTasks os
  | _ :: os => executedTasks os

/-- The tasks held by busy workers, in the order of the worker list. -/
def inFlight : List Worker → List Nat
  | [] => []
  | ⟨_, WorkerState.busy task⟩ :: ws => task :: inFlight ws
  | _ :: ws => inFlight ws

/-! ## Memory safety of a state -/

/-- Every task's `result_` pointer is null or the address of a `Result`. -/
def Heap.WellFormed {U : CppUniverse} (h : Heap U) : Prop :=
  ∀ (i : Nat) (t : Task U) (r : Nat),
    h.tasks[i]? = some t → t.result_ = some r → r < h.results.length

/-- The pending-task count mirrors the queue, and every task address held by
the queue or by a busy worker is the address of a task with a sound
back-pointer. -/
def Sys.Safe {U : CppUniverse} (s : Sys U) : Prop :=
  s.pool.taskSize_ = wrap32 s.pool.taskQueue_.length ∧
  s.heap.WellFormed ∧
  (∀ task ∈ s.pool.taskQueue_, task < s.heap.tasks.length) ∧
  (∀ (w : Nat) (threadId : Int) (task : Nat),
    s.workers[w]? = some ⟨threadId, WorkerState.busy task⟩ → task < s.heap.tasks.length)

/-- A submission is of one of the first `n` task objects. -/
def Event.valid (n : Nat) : Event → Prop
  | Event.submit task => task < n
  | _ => True

/-! ## A concrete universe for examples -/

/-- A few C++ types. -/
inductive ExTy
  | int
  | long
  | bool
  | constCharPtr
deriving DecidableEq

/-- Their values. -/
def ExTy.Val : ExTy → Type
  | ExTy.int => Int
  | ExTy.long => Int
  | ExTy.bool => Bool
  | ExTy.constCharPtr => String

instance : (t : ExTy) → DecidableEq t.Val
  | ExTy.int => inferInstanceAs (DecidableEq Int)
  | ExTy.long => inferInstanceAs (DecidableEq Int)
  | ExTy.bool => inferInstanceAs (DecidableEq Bool)
  | ExTy.constCharPtr => inferInstanceAs (DecidableEq String)

/-- The example universe. -/
def exU : CppUniverse :=
  { Ty := ExTy, Val := ExTy.Val, decTy := inferInstance, decVal := inferInstance,
    constCharPtr := ExTy.constCharPtr, literal := fun s => s }

/-- Three task objects: two return an `int`, one returns an empty box. -/
def exTasks : List (Task exU) :=
  [Task.init (Any.ofData ExTy.int (66 : Int)), Task.init (Any.ofData ExTy.int (144 : Int)),
   Task.init Any.default]

/-- A pool of capacity 1 with the given queue. -/
def exCapOne (queue : List Nat) : Sys exU :=
  { Sys.init [Task.init Any.default, Task.init Any.default] with
    pool := { ThreadPool.init with
      taskQueMaxThreshHold_ := 1, taskQueue_ := queue, taskSize_ := queue.length } }

/-- Source `ThreadPool pool;` in the default Fixed mode. -/
def exFixed : Sys exU := Sys.init exTasks

/-- Source `ThreadPool pool; pool.setMode(PoolMode::MODE_CACHED);`. -/
def exCached : Sys exU :=
  { Sys.init exTasks with pool := ThreadPool.init.setMode PoolMode.MODE_CACHED }

/-- The Fixed pool after `pool.start(1)`. -/
def exFixedStarted : Sys exU := (exFixed.start 1).get (by decide)

/-- The Cached pool after `pool.start(1)`. -/
def exCachedStarted : Sys exU := (exCached.start 1).get (by decide)

/-- A schedule for one worker: two submissions, a fetch, a third submission,
the completion of the first task and the next fetch. -/
def exFifoSchedule : List Event :=
  [Event.submit 0, Event.submit 1, Event.fetch 0, Event.submit 2, Event.complete 0,
   Event.fetch 0]

/-- A Cached-mode schedule: two submissions (the second spawns a worker), both
workers fetch and complete, and the second worker's wait times out after 60
idle seconds. -/
def exCachedSchedule : List Event :=
  [Event.submit 0, Event.submit 1, Event.fetch 0, Event.fetch 1, Event.complete 0,
   Event.complete 1, Event.waitTimeout 1 60]

/-! ## Machine-integer facts -/

theorem wrap32_of_range (x : Int) (h1 : -2147483648 ≤ x) (h2 : x ≤ 2147483647) :
    wrap32 x = x := by
  unfold wrap32; omega

theorem wrap32_wrap32_add (x k : Int) : wrap32 (wrap32 x + k) = wrap32 (x + k) := by
  unfold wrap32; omega

theorem toSizeT_of_nonneg (x : Int) (h1 : 0 ≤ x) (h2 : x ≤ 2147483647) :
    (toSizeT x : Int) = x := by
  unfold toSizeT; omega

/-! ## The value box and the result handoff -/

/-- C4: a box built from a value `v` of type `A` gives back exactly `v` when
asked for an `A`; asked for any other type `B` it throws the type-mismatch
error; so extraction succeeds exactly for the construction type. -/
theorem any_cast_checked (U : CppUniverse) (A : U.Ty) (v : U.Val A) :
    (Any.ofData A v).cast_ A = Except.ok v ∧
    (∀ B : U.Ty, B ≠ A → (Any.ofData A v).cast_ B = Except.error "type is unmatch!") ∧
    (∀ B : U.Ty, (∃ x, (Any.ofData A v).cast_ B = Except.ok x) ↔ B = A) := by
  have h1 : (Any.ofData A v).cast_ A = Except.ok v := by
    simp [Any.cast_, Any.ofData]
  have h2 : ∀ B : U.Ty, B ≠ A → (Any.ofData A v).cast_ B = Except.error "type is unmatch!" := by
    intro B hB
    have hne : ¬ A = B := fun h => hB h.symm
    simp [Any.cast_, Any.ofData, hne]
  refine ⟨h1, h2, ?_⟩
  intro B
  constructor
  · rintro ⟨x, hx⟩
    by_contra hB
    rw [h2 B hB] at hx
    cases hx
  · rintro rfl
    exact ⟨v, h1⟩

theorem any_cast_checked_witness :
    (@Any.ofData exU ExTy.int (66 : Int)).cast_ ExTy.int = Except.ok (66 : Int) ∧
    (@Any.ofData exU ExTy.int (66 : Int)).cast_ ExTy.long =
      Except.error "type is unmatch!" :=
  ⟨(any_cast_checked exU ExTy.int (66 : Int)).1,
   (any_cast_checked exU ExTy.int (66 : Int)).2.1 ExTy.long (fun h => ExTy.noConfusion h)⟩

/-- C3: `get` on a result constructed with `isValid = false` returns at once,
whatever the handshake counter is (also when it is 0 and nothing was posted);
the value is the box built from the empty string literal, and the result
object (counter and value slot) is left as it was. -/
theorem result_get_invalid (U : CppUniverse) (r : Result U) (h : r.isValid_ = false) :
    r.get = some (Any.ofData U.constCharPtr (U.literal ""), r) := by
  simp [Result.get, h]

theorem result_get_invalid_witness :
    (@Result.get exU ⟨Any.default, Semaphore.init, 0, false⟩) =
      some (Any.ofData ExTy.constCharPtr "", ⟨Any.default, Semaphore.init, 0, false⟩) :=
  result_get_invalid exU ⟨Any.default, Semaphore.init, 0, false⟩ rfl

theorem list_getElem?_set_self {α : Type} (l : List α) (i : Nat) (x a : α)
    (h : l[i]? = some x) : (l.set i a)[i]? = some a := by
  have hi : i < l.length := by
    by_contra hc
    rw [List.getElem?_eq_none (by omega)] at h
    cases h
  simp [List.getElem?_set, hi]

theorem list_getElem?_set_other {α : Type} (l : List α) (i j : Nat) (a : α)
    (h : j ≠ i) : (l.set i a)[j]? = l[j]? := by
  simp [List.getElem?_set, h.symm]

/-- C1: when a task whose `run()` returns `V` is bound to a valid result whose
handshake counter is 0, one `Task::exec` posts `V` and raises the counter to
exactly 1, the following `Result::get` returns exactly `V` and brings the
counter back to 0; no other result object is touched. -/
theorem result_handoff_exact (U : CppUniverse) (h : Heap U) (task res : Nat)
    (t : Task U) (r : Result U) (V : Any U)
    (htask : h.tasks[task]? = some t) (hrun : t.run = V)
    (hbound : t.result_ = some res) (hres : h.results[res]? = some r)
    (hvalid : r.isValid_ = true) (hsem : r.sem_.resLimit_ = 0) :
    ∃ h1 r1 r2, Task.exec h task = some h1 ∧
      h1.results[res]? = some r1 ∧ r1.sem_.resLimit_ = r.sem_.resLimit_ + 1 ∧
      r1.get = some (V, r2) ∧ r2.sem_.resLimit_ = 0 ∧
      h1.tasks = h.tasks ∧ ∀ j, j ≠ res → h1.results[j]? = h.results[j]? := by
  refine ⟨{ h with results := h.results.set res (r.setVal t.run) }, r.setVal t.run,
    { r.setVal t.run with any_ := Any.default, sem_ := ⟨0⟩ }, ?_, ?_, ?_, ?_, ?_, ?_, ?_⟩
  · simp [Task.exec, htask, hbound, hres]
  · exact list_getElem?_set_self _ _ _ _ hres
  · simp [Result.setVal, Semaphore.post]
  · simp [Result.get, Result.setVal, Semaphore.post, Semaphore.wait, hvalid, hsem, hrun]
  · rfl
  · rfl
  · intro j hj
    exact list_getElem?_set_other _ _ _ _ hj

theorem result_handoff_exact_witness :
    ∃ h1 r1 r2,
      Task.exec (⟨[⟨Any.ofData ExTy.int (66 : Int), some 0⟩],
        [⟨Any.default, Semaphore.init, 0, true⟩]⟩ : Heap exU) 0 = some h1 ∧
      h1.results[0]? = some r1 ∧ r1.sem_.resLimit_ = (0 : Int) + 1 ∧
      r1.get = some (Any.ofData ExTy.int (66 : Int), r2) ∧ r2.sem_.resLimit_ = 0 ∧
      h1.tasks = [⟨Any.ofData ExTy.int (66 : Int), some 0⟩] ∧
      ∀ j, j ≠ 0 → h1.results[j]? =
        ([⟨Any.default, Semaphore.init, 0, true⟩] : List (Result exU))[j]? :=
  result_handoff_exact exU
    ⟨[⟨Any.ofData ExTy.int (66 : Int), some 0⟩], [⟨Any.default, Semaphore.init, 0, true⟩]⟩
    0 0 ⟨Any.ofData ExTy.int (66 : Int), some 0⟩ ⟨Any.default, Semaphore.init, 0, true⟩
    (Any.ofData ExTy.int (66 : Int)) rfl rfl rfl rfl rfl rfl

/-! ## Configuration after start -/

theorem setMode_running (p : ThreadPool) (mode : PoolMode) (h : p.isPoolRunning_ = true) :
    p.setMode mode = p := by
  simp [ThreadPool.setMode, ThreadPool.checkRunningState, h]

theorem setThreadSizeThreashHold_running (p : ThreadPool) (threashhold : Int)
    (h : p.isPoolRunning_ = true) : p.setThreadSizeThreashHold_ threashhold = p := by
  simp [ThreadPool.setThreadSizeThreashHold_, ThreadPool.checkRunningState, h]

/-- C9: on a pool that `start(1)` has set running, `setTaskQueMaxThreshHold(5)`
replaces the queue capacity `INT32_MAX` by 5. -/
theorem setTaskQueMaxThreshHold_running_overwrites :
    ((Sys.init []).start 1 : Option (Sys exU)).map
      (fun s => (s.pool.isPoolRunning_, s.pool.taskQueMaxThreshHold_,
        (s.pool.setTaskQueMaxThreshHold 5).taskQueMaxThreshHold_)) =
      some (true, 2147483647, 5) := by
  decide

/-! ## Logical ids -/

/-- C6: on a newly constructed pool `start(2)` gives both `Thread` objects the
id 0, so the registry holds one worker after the first loop, and the second
loop's `threads_[1]->start()` dereferences a null pointer; a Cached-mode
submit after `start(1)` starts a second thread under the registered id 0. -/
theorem start_two_reuses_id :
    Sys.startCreate 0 2 [] = [((0 : Int), (⟨0⟩ : Thread))] ∧
    ((Sys.init []).start 2 : Option (Sys exU)) = none ∧
    (({ Sys.init [Task.init Any.default, Task.init Any.default] with
          pool := ThreadPool.init.setMode PoolMode.MODE_CACHED } : Sys exU).start 1).bind
        (fun s => (s.run [Event.submit 0, Event.submit 1]).map
          (fun x => (x.1.pool.threads_.map (fun e => e.1), x.1.workers.map (fun w => w.threadId),
            x.1.pool.curThreadSize_))) =
      some ([0], [0, 0], 2) := by
  decide

/-! ## The idle count -/

/-- C10: a Cached pool after `start(1)`, two submissions (the second spawns a
worker and raises only `curThreadSize_`) and a fetch by each of the two
workers has `idleThreadSize_ = -1` with `curThreadSize_ = 2`; likewise after
`start(0)`, one submission (which spawns the only worker) and its fetch,
`idleThreadSize_ = -1` with `curThreadSize_ = 1`. -/
theorem idle_count_negative :
    (exCached.start 1).bind
        (fun s => (s.run [Event.submit 0, Event.submit 1, Event.fetch 0, Event.fetch 1]).map
          (fun x => (x.1.pool.idleThreadSize_, x.1.pool.curThreadSize_,
            x.1.workers.map (fun w => w.state)))) =
      some (-1, 2, [WorkerState.busy 0, WorkerState.busy 1]) ∧
    (exCached.start 0).bind
        (fun s => (s.run [Event.submit 0, Event.fetch 0]).map
          (fun x => (x.1.pool.idleThreadSize_, x.1.pool.curThreadSize_,
            x.1.workers.map (fun w => w.state)))) =
      some (-1, 1, [WorkerState.busy 0]) := by
  decide

/-! ## Shutdown -/

/-- C8: in a Cached pool after `start(1)` and two submissions (the second
starts a second thread under the registered id 0), worker 1 takes a task; after
the destructor's signal, worker 0's shutdown exit erases id 0, and the drain
wait is satisfied with the registry empty while worker 1 is still executing
its task and `curThreadSize_` is 2.  In the Fixed pool after `start(1)` the
wait is satisfied after the only worker's exit with `curThreadSize_` still 1. -/
theorem shutdown_completes_with_live_worker :
    (exCached.start 1).bind
        (fun s => (s.run [Event.submit 0, Event.submit 1, Event.fetch 1, Event.shutdown,
            Event.wakeup 0]).map
          (fun x => (x.1.destructorWait.isSome, x.1.pool.threads_.size,
            x.1.workers, x.1.pool.curThreadSize_))) =
      some (true, 0, [⟨0, WorkerState.exited⟩, ⟨0, WorkerState.busy 0⟩], 2) ∧
    (exFixed.start 1).bind
        (fun s => (s.run [Event.shutdown, Event.wakeup 0]).map
          (fun x => (x.1.destructorWait.isSome, x.1.pool.threads_.size,
            x.1.workers, x.1.pool.curThreadSize_))) =
      some (true, 0, [⟨0, WorkerState.exited⟩], 1) := by
  decide

/-! ## Submission -/

theorem emplace_mapAt_isSome (m : ThreadMap) (k : Int) (ptr : Thread) :
    ∃ t, (m.emplace k ptr).mapAt k = some t := by
  unfold ThreadMap.emplace ThreadMap.mapAt
  by_cases h : (m.lookup k).isSome
  · rw [if_pos h]
    exact Option.isSome_iff_exists.mp h
  · rw [if_neg h, List.lookup_append]
    cases hk : List.lookup k m with
    | none => exact ⟨ptr, by simp⟩
    | some t => exact ⟨t, by simp⟩

/-- The Cached-mode block never fails, and touches only the registry, the
current-worker count and the list of started threads. -/
theorem spawnIfNeeded_spec {U : CppUniverse} (s : Sys U) :
    s.spawnIfNeeded = some s ∨
    (s.pool.poolMode_ = PoolMode.MODE_CACHED ∧ s.pool.taskSize_ > s.pool.idleThreadSize_ ∧
      s.pool.curThreadSize_ < s.pool.threadSizeThreshHold_ ∧
      ∃ t, s.spawnIfNeeded = some { s with
        pool := { s.pool with
          threads_ := s.pool.threads_.emplace s.generateId_ (Thread.construct s.generateId_),
          curThreadSize_ := wrap32 (s.pool.curThreadSize_ + 1) },
        workers := s.workers ++ [Thread.start t] }) := by
  unfold Sys.spawnIfNeeded
  split
  · rename_i hc
    right
    refine ⟨hc.1, hc.2.1, hc.2.2, ?_⟩
    obtain ⟨t, ht⟩ := emplace_mapAt_isSome s.pool.threads_ s.generateId_
      (Thread.construct s.generateId_)
    refine ⟨t, ?_⟩
    simp only [Thread.getId, Thread.construct] at ht ⊢
    rw [ht]
  · left; rfl

theorem construct_spec {U : CppUniverse} (h : Heap U) (task : Nat) (isValid : Bool)
    (ht : task < h.tasks.length) :
    ∃ h1, Result.construct h task isValid = some (h1, h.results.length) ∧
      h1.results[h.results.length]? =
        some ⟨Any.default, Semaphore.init, task, isValid⟩ ∧
      h1.tasks.length = h.tasks.length := by
  unfold Result.construct
  have : h.tasks[task]? = some h.tasks[task] := List.getElem?_eq_getElem ht
  rw [this]
  refine ⟨_, rfl, ?_, ?_⟩
  · simp
  · simp

/-- What a rejected submission does. -/
theorem submitTask_full {U : CppUniverse} (s : Sys U) (sp : Nat)
    (hsp : sp < s.heap.tasks.length) (hfull : s.pool.notFull = false) :
    ∃ s1 r, s.submitTask sp = some (s1, s.heap.results.length) ∧
      s1.heap.results[s.heap.results.length]? = some r ∧ r.isValid_ = false ∧
      r.task_ = sp ∧ r.any_ = Any.default ∧
      s1.pool = s.pool ∧ s1.workers = s.workers ∧ s1.generateId_ = s.generateId_ := by
  obtain ⟨h1, hc, hr, -⟩ := construct_spec s.heap sp false hsp
  refine ⟨{ s with heap := h1 }, _, ?_, hr, rfl, rfl, rfl, rfl, rfl, rfl⟩
  simp [Sys.submitTask, hfull, hc]

/-- The Cached-mode block always completes and leaves everything but the
registry, the current-worker count and the started threads as it was. -/
theorem spawnIfNeeded_frame {U : CppUniverse} (s : Sys U) :
    ∃ s2, s.spawnIfNeeded = some s2 ∧ s2.heap = s.heap ∧
      s2.generateId_ = s.generateId_ ∧
      s2.pool.taskQueue_ = s.pool.taskQueue_ ∧ s2.pool.taskSize_ = s.pool.taskSize_ ∧
      s2.pool.idleThreadSize_ = s.pool.idleThreadSize_ ∧
      s2.pool.taskQueMaxThreshHold_ = s.pool.taskQueMaxThreshHold_ ∧
      s2.pool.isPoolRunning_ = s.pool.isPoolRunning_ := by
  rcases spawnIfNeeded_spec s with hs | ⟨-, -, -, t, hs⟩
  · exact ⟨_, hs, rfl, rfl, rfl, rfl, rfl, rfl, rfl⟩
  · exact ⟨_, hs, rfl, rfl, rfl, rfl, rfl, rfl, rfl⟩

/-- What an accepted submission does. -/
theorem submitTask_room {U : CppUniverse} (s : Sys U) (sp : Nat)
    (hsp : sp < s.heap.tasks.length) (hroom : s.pool.notFull = true) :
    ∃ s1 r, s.submitTask sp = some (s1, s.heap.results.length) ∧
      s1.heap.results[s.heap.results.length]? = some r ∧ r.isValid_ = true ∧
      r.task_ = sp ∧
      s1.pool.taskQueue_ = s.pool.taskQueue_ ++ [sp] ∧
      s1.pool.taskSize_ = wrap32 (s.pool.taskSize_ + 1) ∧
      s1.pool.idleThreadSize_ = s.pool.idleThreadSize_ := by
  obtain ⟨s2, hs2, hheap, -, hq, hts, hidle, -, -⟩ := spawnIfNeeded_frame (s.enqueue sp)
  obtain ⟨h1, hc, hr, -⟩ := construct_spec s.heap sp true hsp
  have hheap2 : s2.heap = s.heap := hheap
  refine ⟨{ s2 with heap := h1 }, ⟨Any.default, Semaphore.init, sp, true⟩,
    ?_, hr, rfl, rfl, hq, hts, hidle⟩
  unfold Sys.submitTask
  rw [hroom]
  simp only [Bool.not_true, Bool.false_eq_true, if_false]
  rw [hs2]
  simp only []
  rw [hheap2, hc]

theorem notFull_of_lt (p : ThreadPool) (hcap : p.taskQueMaxThreshHold_ ≤ INT32_MAX)
    (h : (p.taskQueue_.length : Int) < p.taskQueMaxThreshHold_) : p.notFull = true := by
  unfold INT32_MAX at hcap
  have := toSizeT_of_nonneg p.taskQueMaxThreshHold_ (by omega) hcap
  simp only [ThreadPool.notFull, decide_eq_true_eq]
  omega

theorem notFull_of_ge (p : ThreadPool) (hcap : p.taskQueMaxThreshHold_ ≤ INT32_MAX)
    (h0 : 0 ≤ p.taskQueMaxThreshHold_)
    (h : p.taskQueMaxThreshHold_ ≤ (p.taskQueue_.length : Int)) : p.notFull = false := by
  unfold INT32_MAX at hcap
  have := toSizeT_of_nonneg p.taskQueMaxThreshHold_ h0 hcap
  simp only [ThreadPool.notFull, decide_eq_false_iff_not]
  omega

/-- C2: for a live task `sp` and a pool whose pending-task count mirrors its
queue: if the queue holds fewer tasks than the capacity, `submitTask` appends
`sp` at the tail, raises the pending-task count by exactly one and returns a
valid `Result` bound to `sp`; if the queue is at capacity when the one-second
wait ends, it returns an invalid `Result` and leaves the whole pool object
(queue, pending-task count, worker counts) and the started threads unchanged. -/
theorem submitTask_accepts_iff_capacity (U : CppUniverse) (s : Sys U) (sp : Nat)
    (hsp : sp < s.heap.tasks.length)
    (hcap : s.pool.taskQueMaxThreshHold_ ≤ INT32_MAX)
    (hsync : s.pool.taskSize_ = wrap32 s.pool.taskQueue_.length) :
    ((s.pool.taskQueue_.length : Int) < s.pool.taskQueMaxThreshHold_ →
      ∃ s1 res r, s.submitTask sp = some (s1, res) ∧
        s1.heap.results[res]? = some r ∧ r.isValid_ = true ∧ r.task_ = sp ∧
        s1.pool.taskQueue_ = s.pool.taskQueue_ ++ [sp] ∧
        s1.pool.taskSize_ = s.pool.taskSize_ + 1) ∧
    ((s.pool.taskQueue_.length : Int) = s.pool.taskQueMaxThreshHold_ →
      ∃ s1 res r, s.submitTask sp = some (s1, res) ∧
        s1.heap.results[res]? = some r ∧ r.isValid_ = false ∧ r.task_ = sp ∧
        s1.pool = s.pool ∧ s1.workers = s.workers) := by
  constructor
  · intro hlt
    obtain ⟨s1, r, h1, h2, h3, h4, h5, h6, -⟩ :=
      submitTask_room s sp hsp (notFull_of_lt s.pool hcap hlt)
    refine ⟨s1, _, r, h1, h2, h3, h4, h5, ?_⟩
    rw [h6, hsync]
    unfold INT32_MAX at hcap
    rw [wrap32_of_range (s.pool.taskQueue_.length : Int) (by omega) (by omega)]
    exact wrap32_of_range _ (by omega) (by omega)
  · intro heq
    obtain ⟨s1, r, h1, h2, h3, h4, -, h5, h6, -⟩ :=
      submitTask_full s sp hsp (notFull_of_ge s.pool hcap (by omega) (by omega))
    exact ⟨s1, _, r, h1, h2, h3, h4, h5, h6⟩

theorem submitTask_accepts_iff_capacity_witness :
    (∃ s1 res r, (exCapOne []).submitTask 1 = some (s1, res) ∧
        s1.heap.results[res]? = some r ∧ r.isValid_ = true ∧ r.task_ = 1 ∧
        s1.pool.taskQueue_ = (exCapOne []).pool.taskQueue_ ++ [1] ∧
        s1.pool.taskSize_ = (exCapOne []).pool.taskSize_ + 1) ∧
    (∃ s1 res r, (exCapOne [0]).submitTask 1 = some (s1, res) ∧
        s1.heap.results[res]? = some r ∧ r.isValid_ = false ∧ r.task_ = 1 ∧
        s1.pool = (exCapOne [0]).pool ∧ s1.workers = (exCapOne [0]).workers) :=
  ⟨(submitTask_accepts_iff_capacity exU (exCapOne []) 1 (by decide) (by decide)
      (by decide)).1 (by decide),
   (submitTask_accepts_iff_capacity exU (exCapOne [0]) 1 (by decide) (by decide)
      (by decide)).2 (by decide)⟩

/-! ## What each step can do -/

theorem construct_none {U : CppUniverse} (h : Heap U) (task : Nat) (isValid : Bool)
    (ht : ¬ task < h.tasks.length) : Result.construct h task isValid = none := by
  unfold Result.construct
  rw [List.getElem?_eq_none (by omega)]

/-- The three outcomes of `submitTask`: undefined behaviour (the address is no
task), rejection, or acceptance after the Cached-mode block. -/
theorem submitTask_cases {U : CppUniverse} (s : Sys U) (sp : Nat) :
    s.submitTask sp = none ∨
    (s.pool.notFull = false ∧ ∃ h1,
      s.submitTask sp = some ({ s with heap := h1 }, s.heap.results.length) ∧
      h1.results[s.heap.results.length]? =
        some ⟨Any.default, Semaphore.init, sp, false⟩ ∧
      Result.construct s.heap sp false = some (h1, s.heap.results.length)) ∨
    (s.pool.notFull = true ∧ ∃ s2 h1,
      (s.enqueue sp).spawnIfNeeded = some s2 ∧
      s.submitTask sp = some ({ s2 with heap := h1 }, s.heap.results.length) ∧
      h1.results[s.heap.results.length]? =
        some ⟨Any.default, Semaphore.init, sp, true⟩ ∧
      Result.construct s.heap sp true = some (h1, s.heap.results.length)) := by
  by_cases hsp : sp < s.heap.tasks.length
  · cases hfull : s.pool.notFull with
    | false =>
      right; left
      obtain ⟨h1, hc, hr, -⟩ := construct_spec s.heap sp false hsp
      refine ⟨rfl, h1, ?_, hr, hc⟩
      simp [Sys.submitTask, hfull, hc]
    | true =>
      right; right
      obtain ⟨s2, hs2, hheap, -⟩ := spawnIfNeeded_frame (s.enqueue sp)
      obtain ⟨h1, hc, hr, -⟩ := construct_spec s.heap sp true hsp
      have hheap2 : s2.heap = s.heap := hheap
      refine ⟨rfl, s2, h1, hs2, ?_, hr, hc⟩
      unfold Sys.submitTask
      rw [hfull]
      simp only [Bool.not_true, Bool.false_eq_true, if_false]
      rw [hs2]
      simp only []
      rw [hheap2, hc]
  · left
    cases hfull : s.pool.notFull with
    | false =>
      simp [Sys.submitTask, hfull, construct_none s.heap sp false hsp]
    | true =>
      obtain ⟨s2, hs2, hheap, -⟩ := spawnIfNeeded_frame (s.enqueue sp)
      have hheap2 : s2.heap = s.heap := hheap
      unfold Sys.submitTask
      rw [hfull]
      simp only [Bool.not_true, Bool.false_eq_true, if_false]
      rw [hs2]
      simp only []
      rw [hheap2, construct_none s.heap sp true hsp]

/-- The outcomes of a fetch: nothing happens, `front()` is called on an empty
queue, or the head of the queue moves into the worker. -/
theorem fetch_cases {U : CppUniverse} (s : Sys U) (w : Nat) :
    s.fetch w = some (s, none) ∨
    (s.pool.taskSize_ ≠ 0 ∧ s.pool.taskQueue_ = [] ∧ s.fetch w = none) ∨
    (∃ threadId task rest, s.workers[w]? = some ⟨threadId, WorkerState.idle⟩ ∧
      s.pool.taskSize_ ≠ 0 ∧ s.pool.taskQueue_ = task :: rest ∧
      s.fetch w = some ({ s with
          pool := { s.pool with
            idleThreadSize_ := wrap32 (s.pool.idleThreadSize_ - 1),
            taskQueue_ := rest,
            taskSize_ := wrap32 (s.pool.taskSize_ - 1) },
          workers := s.workers.set w ⟨threadId, WorkerState.busy task⟩ }, some task)) := by
  unfold Sys.fetch
  split
  · rename_i threadId hw
    by_cases h0 : s.pool.taskSize_ = 0
    · left; simp [h0]
    · cases hq : s.pool.taskQueue_ with
      | nil => right; left; exact ⟨h0, rfl, by simp [h0]⟩
      | cons task rest =>
        right; right
        exact ⟨threadId, task, rest, hw, h0, rfl, by simp [h0]⟩
  · left; rfl

/-- The outcomes of a completion: nothing happens, the task's pointers are
broken, or the task is executed and the worker becomes idle. -/
theorem complete_cases {U : CppUniverse} (s : Sys U) (w : Nat) :
    s.complete w = some (s, none) ∨ s.complete w = none ∨
    (∃ threadId task heap, s.workers[w]? = some ⟨threadId, WorkerState.busy task⟩ ∧
      Task.exec s.heap task = some heap ∧
      s.complete w = some ({ s with
          heap := heap,
          pool := { s.pool with idleThreadSize_ := wrap32 (s.pool.idleThreadSize_ + 1) },
          workers := s.workers.set w ⟨threadId, WorkerState.idle⟩ }, some task)) := by
  unfold Sys.complete
  split
  · rename_i threadId task hw
    cases he : Task.exec s.heap task with
    | none => right; left; rfl
    | some heap => right; right; exact ⟨threadId, task, heap, hw, he, rfl⟩
  · left; rfl

/-- The outcomes of a wait timeout: nothing, retirement, or a shutdown exit. -/
theorem waitTimeout_cases {U : CppUniverse} (s : Sys U) (w : Nat) (dur : Int) :
    s.waitTimeout w dur = s ∨
    (∃ threadId, s.workers[w]? = some ⟨threadId, WorkerState.idle⟩ ∧
      s.pool.poolMode_ = PoolMode.MODE_CACHED ∧
      dur ≥ THREAD_MAX_IDLE_TIME ∧ toSizeT s.pool.curThreadSize_ > s.pool.initThreadSize_ ∧
      s.waitTimeout w dur = s.retire w threadId) ∨
    (∃ threadId, s.workers[w]? = some ⟨threadId, WorkerState.idle⟩ ∧
      s.pool.isPoolRunning_ = false ∧ s.waitTimeout w dur = s.deregister w threadId) := by
  unfold Sys.waitTimeout
  split
  · rename_i threadId hw
    by_cases h1 : s.pool.poolMode_ = PoolMode.MODE_CACHED
    · rw [if_pos h1]
      by_cases h2 : dur ≥ THREAD_MAX_IDLE_TIME ∧
          toSizeT s.pool.curThreadSize_ > s.pool.initThreadSize_
      · rw [if_pos h2]
        right; left
        exact ⟨threadId, hw, h1, h2.1, h2.2, rfl⟩
      · rw [if_neg h2]
        cases hr : s.pool.isPoolRunning_ with
        | false => right; right; exact ⟨threadId, hw, rfl, by simp⟩
        | true => left; simp
    · rw [if_neg h1]; left; rfl
  · left; rfl

/-- The outcomes of a wake-up: nothing, or a shutdown exit. -/
theorem wakeup_cases {U : CppUniverse} (s : Sys U) (w : Nat) :
    s.wakeup w = s ∨
    (∃ threadId, s.workers[w]? = some ⟨threadId, WorkerState.idle⟩ ∧
      s.pool.isPoolRunning_ = false ∧ s.wakeup w = s.deregister w threadId) := by
  unfold Sys.wakeup
  split
  · rename_i threadId hw
    cases hr : s.pool.isPoolRunning_ with
    | false => right; exact ⟨threadId, hw, rfl, by simp⟩
    | true => left; simp
  · left; rfl

theorem submitObs_at {U : CppUniverse} (s : Sys U) (task res : Nat) (r : Result U)
    (h : s.heap.results[res]? = some r) :
    s.submitObs task res = if r.isValid_ then Obs.accepted task else Obs.rejected task := by
  simp [Sys.submitObs, h]

/-- Every step of the program is one of eight kinds. -/
theorem step_cases {U : CppUniverse} (s s1 : Sys U) (e : Event) (o : Obs)
    (h : s.step e = some (s1, o)) :
    (o = Obs.silent ∧ s1 = s) ∨
    (∃ sp, o = Obs.rejected sp ∧ s.pool.notFull = false ∧
      s1.pool = s.pool ∧ s1.workers = s.workers ∧ s1.generateId_ = s.generateId_ ∧
      e = Event.submit sp ∧
      Result.construct s.heap sp false = some (s1.heap, s.heap.results.length)) ∨
    (∃ sp s2, o = Obs.accepted sp ∧ s.pool.notFull = true ∧
      (s.enqueue sp).spawnIfNeeded = some s2 ∧
      s1.pool = s2.pool ∧ s1.workers = s2.workers ∧ s1.generateId_ = s2.generateId_ ∧
      e = Event.submit sp ∧
      Result.construct s.heap sp true = some (s1.heap, s.heap.results.length)) ∨
    (∃ w threadId task rest, o = Obs.fetched w task ∧
      s.workers[w]? = some ⟨threadId, WorkerState.idle⟩ ∧
      s.pool.taskSize_ ≠ 0 ∧ s.pool.taskQueue_ = task :: rest ∧
      s1 = { s with
          pool := { s.pool with
            idleThreadSize_ := wrap32 (s.pool.idleThreadSize_ - 1),
            taskQueue_ := rest,
            taskSize_ := wrap32 (s.pool.taskSize_ - 1) },
          workers := s.workers.set w ⟨threadId, WorkerState.busy task⟩ }) ∨
    (∃ w threadId task heap, o = Obs.executed w task ∧
      s.workers[w]? = some ⟨threadId, WorkerState.busy task⟩ ∧
      Task.exec s.heap task = some heap ∧
      s1 = { s with
          heap := heap,
          pool := { s.pool with idleThreadSize_ := wrap32 (s.pool.idleThreadSize_ + 1) },
          workers := s.workers.set w ⟨threadId, WorkerState.idle⟩ }) ∨
    (∃ w threadId, o = Obs.silent ∧ s.workers[w]? = some ⟨threadId, WorkerState.idle⟩ ∧
      s.pool.poolMode_ = PoolMode.MODE_CACHED ∧
      toSizeT s.pool.curThreadSize_ > s.pool.initThreadSize_ ∧ s1 = s.retire w threadId) ∨
    (∃ w threadId, o = Obs.silent ∧ s.workers[w]? = some ⟨threadId, WorkerState.idle⟩ ∧
      s.pool.isPoolRunning_ = false ∧ s1 = s.deregister w threadId) ∨
    (o = Obs.silent ∧ s1 = s.shutdown) := by
  cases e with
  | submit task =>
    rcases submitTask_cases s task with hn | ⟨hfull, h1, hs, hr, hc⟩ |
      ⟨hroom, s2, h1, hsp, hs, hr, hc⟩
    · simp [Sys.step, hn] at h
    · simp only [Sys.step, hs, Option.some.injEq, Prod.mk.injEq] at h
      obtain ⟨rfl, rfl⟩ := h
      right; left
      refine ⟨task, ?_, hfull, rfl, rfl, rfl, rfl, hc⟩
      rw [submitObs_at _ task _ _ hr]
      simp
    · simp only [Sys.step, hs, Option.some.injEq, Prod.mk.injEq] at h
      obtain ⟨rfl, rfl⟩ := h
      right; right; left
      refine ⟨task, s2, ?_, hroom, hsp, rfl, rfl, rfl, rfl, hc⟩
      rw [submitObs_at _ task _ _ hr]
      simp
  | fetch w =>
    rcases fetch_cases s w with hf | ⟨-, -, hf⟩ | ⟨threadId, task, rest, hw, h0, hq, hf⟩
    · simp only [Sys.step, hf, Option.some.injEq, Prod.mk.injEq] at h
      left; exact ⟨h.2.symm, h.1.symm⟩
    · simp [Sys.step, hf] at h
    · simp only [Sys.step, hf, Option.some.injEq, Prod.mk.injEq] at h
      right; right; right; left
      exact ⟨w, threadId, task, rest, h.2.symm, hw, h0, hq, h.1.symm⟩
  | complete w =>
    rcases complete_cases s w with hf | hf | ⟨threadId, task, heap, hw, he, hf⟩
    · simp only [Sys.step, hf, Option.some.injEq, Prod.mk.injEq] at h
      left; exact ⟨h.2.symm, h.1.symm⟩
    · simp [Sys.step, hf] at h
    · simp only [Sys.step, hf, Option.some.injEq, Prod.mk.injEq] at h
      right; right; right; right; left
      exact ⟨w, threadId, task, heap, h.2.symm, hw, he, h.1.symm⟩
  | waitTimeout w dur =>
    simp only [Sys.step, Option.some.injEq, Prod.mk.injEq] at h
    obtain ⟨rfl, rfl⟩ := h
    rcases waitTimeout_cases s w dur with hf | ⟨threadId, hw, hm, -, hc, hf⟩ |
      ⟨threadId, hw, hr, hf⟩
    · left; exact ⟨rfl, hf⟩
    · right; right; right; right; right; left
      exact ⟨w, threadId, rfl, hw, hm, hc, hf⟩
    · right; right; right; right; right; right; left
      exact ⟨w, threadId, rfl, hw, hr, hf⟩
  | wakeup w =>
    simp only [Sys.step, Option.some.injEq, Prod.mk.injEq] at h
    obtain ⟨rfl, rfl⟩ := h
    rcases wakeup_cases s w with hf | ⟨threadId, hw, hr, hf⟩
    · left; exact ⟨rfl, hf⟩
    · right; right; right; right; right; right; left
      exact ⟨w, threadId, rfl, hw, hr, hf⟩
  | shutdown =>
    simp only [Sys.step, Option.some.injEq, Prod.mk.injEq] at h
    obtain ⟨rfl, rfl⟩ := h
    right; right; right; right; right; right; right
    exact ⟨rfl, rfl⟩

/-! ## Runs -/

theorem spawnIfNeeded_inv {U : CppUniverse} (s s2 : Sys U) (h : s.spawnIfNeeded = some s2) :
    s2 = s ∨
    (s.pool.poolMode_ = PoolMode.MODE_CACHED ∧ s.pool.taskSize_ > s.pool.idleThreadSize_ ∧
      s.pool.curThreadSize_ < s.pool.threadSizeThreshHold_ ∧
      ∃ t, s2 = { s with
        pool := { s.pool with
          threads_ := s.pool.threads_.emplace s.generateId_ (Thread.construct s.generateId_),
          curThreadSize_ := wrap32 (s.pool.curThreadSize_ + 1) },
        workers := s.workers ++ [Thread.start t] }) := by
  rcases spawnIfNeeded_spec s with hs | ⟨h1, h2, h3, t, hs⟩
  · rw [hs] at h
    left; exact (Option.some.inj h).symm
  · rw [hs] at h
    right; exact ⟨h1, h2, h3, t, (Option.some.inj h).symm⟩

theorem run_cons_inv {U : CppUniverse} (s s2 : Sys U) (e : Event) (es : List Event)
    (os : List Obs) (h : s.run (e :: es) = some (s2, os)) :
    ∃ s1 o os1, s.step e = some (s1, o) ∧ s1.run es = some (s2, os1) ∧ os = o :: os1 := by
  simp only [Sys.run] at h
  cases hs : s.step e with
  | none => simp [hs] at h
  | some p =>
    obtain ⟨s1, o⟩ := p
    simp only [hs] at h
    cases hr : s1.run es with
    | none => simp [hr] at h
    | some q =>
      obtain ⟨s3, os1⟩ := q
      simp only [hr, Option.some.injEq, Prod.mk.injEq] at h
      obtain ⟨rfl, rfl⟩ := h
      exact ⟨s1, o, os1, rfl, hr, rfl⟩

/-- An invariant kept by every step is kept by every run. -/
theorem run_induction {U : CppUniverse} (P : Sys U → Prop)
    (hstep : ∀ s s1 e o, P s → s.step e = some (s1, o) → P s1)
    (s s2 : Sys U) (es : List Event) (os : List Obs)
    (h0 : P s) (h : s.run es = some (s2, os)) : P s2 := by
  induction es generalizing s os with
  | nil =>
    simp only [Sys.run, Option.some.injEq, Prod.mk.injEq] at h
    rw [← h.1]; exact h0
  | cons e es ih =>
    obtain ⟨s1, o, os1, hs, hr, -⟩ := run_cons_inv s s2 e es os h
    exact ih s1 os1 (hstep s s1 e o h0 hs) hr

/-! ## First in, first out -/

theorem step_queue {U : CppUniverse} (s s1 : Sys U) (e : Event) (o : Obs)
    (h : s.step e = some (s1, o)) :
    fetchedTasks [o] ++ s1.pool.taskQueue_ = s.pool.taskQueue_ ++ acceptedTasks [o] := by
  rcases step_cases s s1 e o h with ⟨rfl, rfl⟩ | ⟨sp, rfl, -, hp, -⟩ |
    ⟨sp, s2, rfl, -, hsp, hp, -⟩ | ⟨w, threadId, task, rest, rfl, -, -, hq, rfl⟩ |
    ⟨w, threadId, task, heap, rfl, -, -, rfl⟩ | ⟨w, threadId, rfl, -, -, -, rfl⟩ |
    ⟨w, threadId, rfl, -, -, rfl⟩ | ⟨rfl, rfl⟩
  · simp [fetchedTasks, acceptedTasks]
  · simp [fetchedTasks, acceptedTasks, hp]
  · obtain ⟨s3, hs3, -, -, hq, -⟩ := spawnIfNeeded_frame (s.enqueue sp)
    rw [hsp] at hs3
    cases hs3
    simp [fetchedTasks, acceptedTasks, hp, hq, Sys.enqueue]
  · simp [fetchedTasks, acceptedTasks, hq]
  · simp [fetchedTasks, acceptedTasks]
  · simp [fetchedTasks, acceptedTasks, Sys.retire]
  · simp [fetchedTasks, acceptedTasks, Sys.deregister]
  · simp [fetchedTasks, acceptedTasks, Sys.shutdown]

theorem fetchedTasks_cons (o : Obs) (os : List Obs) :
    fetchedTasks (o :: os) = fetchedTasks [o] ++ fetchedTasks os := by
  cases o <;> simp [fetchedTasks]

theorem acceptedTasks_cons (o : Obs) (os : List Obs) :
    acceptedTasks (o :: os) = acceptedTasks [o] ++ acceptedTasks os := by
  cases o <;> simp [acceptedTasks]

theorem executedTasks_cons (o : Obs) (os : List Obs) :
    executedTasks (o :: os) = executedTasks [o] ++ executedTasks os := by
  cases o <;> simp [executedTasks]

/-- Along every run, the tasks fetched so far followed by the queue are the
old queue followed by the tasks accepted so far. -/
theorem run_queue {U : CppUniverse} (s s2 : Sys U) (es : List Event) (os : List Obs)
    (h : s.run es = some (s2, os)) :
    fetchedTasks os ++ s2.pool.taskQueue_ = s.pool.taskQueue_ ++ acceptedTasks os := by
  induction es generalizing s os with
  | nil =>
    simp only [Sys.run, Option.some.injEq, Prod.mk.injEq] at h
    obtain ⟨rfl, rfl⟩ := h
    simp [fetchedTasks, acceptedTasks]
  | cons e es ih =>
    obtain ⟨s1, o, os1, hs, hr, rfl⟩ := run_cons_inv s s2 e es os h
    have h1 := step_queue s s1 e o hs
    have h2 := ih s1 os1 hr
    rw [fetchedTasks_cons, acceptedTasks_cons, List.append_assoc, h2, ← List.append_assoc, h1,
      List.append_assoc]

theorem single_worker_at (ws : List Worker) (w : Nat) (x : Worker)
    (hlen : ws.length = 1) (hw : ws[w]? = some x) : ws = [x] ∧ w = 0 := by
  match ws, hlen with
  | [y], _ =>
    cases w with
    | zero => simp at hw; exact ⟨by rw [hw], rfl⟩
    | succ n => simp at hw

/-- With one worker in Fixed mode, every step keeps the single worker and
moves tasks from "fetched" through the worker to "executed". -/
theorem step_single {U : CppUniverse} (s s1 : Sys U) (e : Event) (o : Obs)
    (h : s.step e = some (s1, o))
    (hm : s.pool.poolMode_ = PoolMode.MODE_FIXED) (hlen : s.workers.length = 1) :
    s1.pool.poolMode_ = PoolMode.MODE_FIXED ∧ s1.workers.length = 1 ∧
    executedTasks [o] ++ inFlight s1.workers = inFlight s.workers ++ fetchedTasks [o] := by
  rcases step_cases s s1 e o h with ⟨rfl, rfl⟩ | ⟨sp, rfl, -, hp, hws, -⟩ |
    ⟨sp, s2, rfl, -, hsp, hp, hws, -⟩ | ⟨w, threadId, task, rest, rfl, hw, -, hq, rfl⟩ |
    ⟨w, threadId, task, heap, rfl, hw, -, rfl⟩ | ⟨w, threadId, rfl, -, hc, -, rfl⟩ |
    ⟨w, threadId, rfl, hw, -, rfl⟩ | ⟨rfl, rfl⟩
  · simp [executedTasks, fetchedTasks, hm, hlen]
  · simp [executedTasks, fetchedTasks, hp, hws, hm, hlen]
  · rcases spawnIfNeeded_inv _ _ hsp with rfl | ⟨hc, -⟩
    · simp [executedTasks, fetchedTasks, hp, hws, hm, hlen, Sys.enqueue]
    · simp [Sys.enqueue, hm] at hc
  · obtain ⟨hws, rfl⟩ := single_worker_at _ _ _ hlen hw
    simp [executedTasks, fetchedTasks, hm, hws, inFlight]
  · obtain ⟨hws, rfl⟩ := single_worker_at _ _ _ hlen hw
    simp [executedTasks, fetchedTasks, hm, hws, inFlight]
  · rw [hm] at hc; cases hc
  · obtain ⟨hws, rfl⟩ := single_worker_at _ _ _ hlen hw
    simp [executedTasks, fetchedTasks, hm, hws, inFlight, Sys.deregister]
  · simp [executedTasks, fetchedTasks, hm, hlen, Sys.shutdown]

theorem run_single {U : CppUniverse} (s s2 : Sys U) (es : List Event) (os : List Obs)
    (h : s.run es = some (s2, os))
    (hm : s.pool.poolMode_ = PoolMode.MODE_FIXED) (hlen : s.workers.length = 1) :
    executedTasks os ++ inFlight s2.workers = inFlight s.workers ++ fetchedTasks os := by
  induction es generalizing s os with
  | nil =>
    simp only [Sys.run, Option.some.injEq, Prod.mk.injEq] at h
    obtain ⟨rfl, rfl⟩ := h
    simp [fetchedTasks, executedTasks]
  | cons e es ih =>
    obtain ⟨s1, o, os1, hs, hr, rfl⟩ := run_cons_inv s s2 e es os h
    obtain ⟨hm1, hlen1, h1⟩ := step_single s s1 e o hs hm hlen
    have h2 := ih s1 os1 hr hm1 hlen1
    rw [fetchedTasks_cons, executedTasks_cons, List.append_assoc, h2, ← List.append_assoc, h1,
      List.append_assoc]

/-- C5: along every schedule that starts with an empty queue, the tasks the
fetches removed, followed by what is still queued, are exactly the accepted
submissions in submission order; so the k-th fetched task is the k-th accepted
one.  With a single worker in Fixed mode the tasks executed, then the task the
worker holds, then the queue, are again the accepted submissions in order. -/
theorem fifo_dequeue (U : CppUniverse) (s s2 : Sys U) (es : List Event) (os : List Obs)
    (hrun : s.run es = some (s2, os)) (hempty : s.pool.taskQueue_ = []) :
    fetchedTasks os ++ s2.pool.taskQueue_ = acceptedTasks os ∧
    (∀ k task : Nat, (fetchedTasks os)[k]? = some task → (acceptedTasks os)[k]? = some task) ∧
    (s.pool.poolMode_ = PoolMode.MODE_FIXED →
      (∃ threadId, s.workers = [⟨threadId, WorkerState.idle⟩]) →
      executedTasks os ++ inFlight s2.workers ++ s2.pool.taskQueue_ = acceptedTasks os ∧
      (inFlight s2.workers).length ≤ 1) := by
  have hq := run_queue s s2 es os hrun
  rw [hempty, List.nil_append] at hq
  refine ⟨hq, ?_, ?_⟩
  · intro k task hk
    rw [← hq, List.getElem?_append_left, hk]
    by_contra hc
    rw [List.getElem?_eq_none (by omega)] at hk
    cases hk
  · rintro hm ⟨threadId, hws⟩
    have hs := run_single s s2 es os hrun hm (by simp [hws])
    rw [hws] at hs
    simp only [inFlight, List.nil_append] at hs
    constructor
    · rw [hs, hq]
    · have hsingle := run_induction (fun t : Sys U =>
          t.pool.poolMode_ = PoolMode.MODE_FIXED ∧ t.workers.length = 1)
        (fun a b e o hP hstep => ⟨(step_single a b e o hstep hP.1 hP.2).1,
          (step_single a b e o hstep hP.1 hP.2).2.1⟩)
        s s2 es os ⟨hm, by simp [hws]⟩ hrun
      match hw2 : s2.workers, hsingle.2 with
      | [x], _ =>
        obtain ⟨id, st⟩ := x
        cases st <;> simp [inFlight]

/-! ## Worker counts -/

/-- What `start` leaves behind when it completes. -/
theorem start_spec {U : CppUniverse} (s s1 : Sys U) (n : Int) (h : s.start n = some s1) :
    0 ≤ n ∧ s1.pool.curThreadSize_ = n ∧ (s1.pool.initThreadSize_ : Int) = n ∧
    s1.pool.isPoolRunning_ = true ∧ s1.pool.poolMode_ = s.pool.poolMode_ ∧
    s1.pool.threadSizeThreshHold_ = s.pool.threadSizeThreshHold_ ∧
    s1.pool.taskQueue_ = s.pool.taskQueue_ ∧ s1.pool.taskSize_ = s.pool.taskSize_ ∧
    s1.pool.taskQueMaxThreshHold_ = s.pool.taskQueMaxThreshHold_ := by
  unfold Sys.start at h
  by_cases hn : n < 0
  · simp [hn] at h
  · rw [if_neg hn] at h
    simp only [] at h
    split at h
    · cases h
    · rename_i workers idle hl
      cases h
      refine ⟨by omega, rfl, ?_, rfl, rfl, rfl, rfl, rfl, rfl⟩
      simp only []
      omega

/-- No step changes the mode, the initial worker count or the ceiling, and in
Fixed mode no step changes the current-worker count. -/
theorem step_frame {U : CppUniverse} (s s1 : Sys U) (e : Event) (o : Obs)
    (h : s.step e = some (s1, o)) :
    s1.pool.poolMode_ = s.pool.poolMode_ ∧ s1.pool.initThreadSize_ = s.pool.initThreadSize_ ∧
    s1.pool.threadSizeThreshHold_ = s.pool.threadSizeThreshHold_ ∧
    (s.pool.poolMode_ = PoolMode.MODE_FIXED → s1.pool.curThreadSize_ = s.pool.curThreadSize_) := by
  rcases step_cases s s1 e o h with ⟨rfl, rfl⟩ | ⟨sp, rfl, -, hp, -⟩ |
    ⟨sp, s2, rfl, -, hsp, hp, -⟩ | ⟨w, threadId, task, rest, rfl, -, -, -, rfl⟩ |
    ⟨w, threadId, task, heap, rfl, -, -, rfl⟩ | ⟨w, threadId, rfl, -, hc, -, rfl⟩ |
    ⟨w, threadId, rfl, -, -, rfl⟩ | ⟨rfl, rfl⟩
  · simp
  · simp [hp]
  · rcases spawnIfNeeded_inv _ _ hsp with rfl | ⟨hc, -, -, t, rfl⟩
    · simp [hp, Sys.enqueue]
    · refine ⟨by simp [hp, Sys.enqueue], by simp [hp, Sys.enqueue], by simp [hp, Sys.enqueue], ?_⟩
      intro hm
      simp [Sys.enqueue, hm] at hc
  · simp
  · simp
  · refine ⟨rfl, rfl, rfl, ?_⟩
    intro hm
    rw [hm] at hc; cases hc
  · simp [Sys.deregister]
  · simp [Sys.shutdown]

/-- The current-worker count stays between the initial count and the ceiling. -/
theorem step_bounds {U : CppUniverse} (s s1 : Sys U) (e : Event) (o : Obs)
    (h : s.step e = some (s1, o))
    (hint : s.pool.threadSizeThreshHold_ ≤ INT32_MAX)
    (hlo : (s.pool.initThreadSize_ : Int) ≤ s.pool.curThreadSize_)
    (hhi : s.pool.curThreadSize_ ≤ s.pool.threadSizeThreshHold_) :
    (s.pool.initThreadSize_ : Int) ≤ s1.pool.curThreadSize_ ∧
    s1.pool.curThreadSize_ ≤ s.pool.threadSizeThreshHold_ := by
  unfold INT32_MAX at hint
  rcases step_cases s s1 e o h with ⟨rfl, rfl⟩ | ⟨sp, rfl, -, hp, -⟩ |
    ⟨sp, s2, rfl, -, hsp, hp, -⟩ | ⟨w, threadId, task, rest, rfl, -, -, -, rfl⟩ |
    ⟨w, threadId, task, heap, rfl, -, -, rfl⟩ | ⟨w, threadId, rfl, -, -, hc, rfl⟩ |
    ⟨w, threadId, rfl, -, -, rfl⟩ | ⟨rfl, rfl⟩
  · exact ⟨hlo, hhi⟩
  · rw [hp]; exact ⟨hlo, hhi⟩
  · rcases spawnIfNeeded_inv _ _ hsp with rfl | ⟨-, -, hlt, t, rfl⟩
    · rw [hp]; exact ⟨hlo, hhi⟩
    · rw [hp]
      simp only [Sys.enqueue] at hlt ⊢
      rw [wrap32_of_range _ (by omega) (by omega)]
      omega
  · exact ⟨hlo, hhi⟩
  · exact ⟨hlo, hhi⟩
  · have hsz := toSizeT_of_nonneg s.pool.curThreadSize_ (by omega) (by omega)
    simp only [Sys.retire]
    rw [wrap32_of_range _ (by omega) (by omega)]
    omega
  · exact ⟨hlo, hhi⟩
  · exact ⟨hlo, hhi⟩

/-- C7: after `start(n)` with `n` at most the ceiling, every state reached by
any schedule of submissions, fetches, completions, wait timeouts (idle
retirements), wake-ups and the shutdown signal has `curThreadSize_ = n` in
Fixed mode and `n <= curThreadSize_ <= threadSizeThreshHold_` in Cached mode;
mode, initial count and ceiling are those fixed at `start`. -/
theorem worker_count_bounds (U : CppUniverse) (s0 s1 : Sys U) (n : Int)
    (hstart : s0.start n = some s1)
    (hle : n ≤ s0.pool.threadSizeThreshHold_)
    (hint : s0.pool.threadSizeThreshHold_ ≤ INT32_MAX)
    (es : List Event) (s2 : Sys U) (os : List Obs) (hrun : s1.run es = some (s2, os)) :
    (s2.pool.poolMode_ = PoolMode.MODE_FIXED → s2.pool.curThreadSize_ = n) ∧
    (s2.pool.poolMode_ = PoolMode.MODE_CACHED →
      n ≤ s2.pool.curThreadSize_ ∧ s2.pool.curThreadSize_ ≤ s2.pool.threadSizeThreshHold_) ∧
    (s2.pool.initThreadSize_ : Int) = n ∧
    s2.pool.threadSizeThreshHold_ = s0.pool.threadSizeThreshHold_ ∧
    s2.pool.poolMode_ = s0.pool.poolMode_ := by
  obtain ⟨h0, hcur, hinit, -, hmode, hceil, -⟩ := start_spec s0 s1 n hstart
  have key := run_induction (fun t : Sys U =>
      t.pool.poolMode_ = s0.pool.poolMode_ ∧ (t.pool.initThreadSize_ : Int) = n ∧
      t.pool.threadSizeThreshHold_ = s0.pool.threadSizeThreshHold_ ∧
      (t.pool.poolMode_ = PoolMode.MODE_FIXED → t.pool.curThreadSize_ = n) ∧
      n ≤ t.pool.curThreadSize_ ∧ t.pool.curThreadSize_ ≤ t.pool.threadSizeThreshHold_)
    (by
      intro a b e o hP hstep
      obtain ⟨hm, hi, hc, hfix, hlo, hhi⟩ := hP
      obtain ⟨fm, fi, fc, ffix⟩ := step_frame a b e o hstep
      obtain ⟨blo, bhi⟩ := step_bounds a b e o hstep (by rw [hc]; exact hint)
        (by rw [hi]; exact hlo) hhi
      refine ⟨by rw [fm, hm], by rw [fi, hi], by rw [fc, hc], ?_, by rw [← hi]; exact blo,
        by rw [fc]; exact bhi⟩
      intro hb
      rw [fm] at hb
      rw [ffix hb, hfix hb])
    s1 s2 es os
    ⟨hmode, hinit, hceil, fun _ => hcur, by rw [hcur], by rw [hcur, hceil]; exact hle⟩ hrun
  obtain ⟨hm, hi, hc, hfix, hlo, hhi⟩ := key
  exact ⟨hfix, fun _ => ⟨hlo, hhi⟩, hi, hc, hm⟩

/-! ## Shutdown -/

theorem erase_mapAt (m : ThreadMap) (k : Int) : (m.erase k).mapAt k = none := by
  unfold ThreadMap.erase ThreadMap.mapAt
  rw [List.lookup_eq_none_iff]
  intro p hp
  have := (List.mem_filter.mp hp).2
  simp only [bne_iff_ne, ne_eq] at this ⊢
  exact fun h => this h.symm

/-- A shutdown exit removes the worker's id from the registry, marks the
thread as gone and changes neither worker counter. -/
theorem deregister_spec {U : CppUniverse} (s : Sys U) (w : Nat) (threadId : Int)
    (x : Worker) (hw : s.workers[w]? = some x) :
    (s.deregister w threadId).pool.threads_.mapAt threadId = none ∧
    (s.deregister w threadId).workers[w]? = some ⟨threadId, WorkerState.exited⟩ ∧
    (s.deregister w threadId).pool.curThreadSize_ = s.pool.curThreadSize_ ∧
    (s.deregister w threadId).pool.idleThreadSize_ = s.pool.idleThreadSize_ :=
  ⟨erase_mapAt _ _, list_getElem?_set_self _ _ _ _ hw, rfl, rfl⟩

/-! ## The pending-task count mirrors the queue -/

theorem step_sync {U : CppUniverse} (s s1 : Sys U) (e : Event) (o : Obs)
    (h : s.step e = some (s1, o))
    (hsync : s.pool.taskSize_ = wrap32 s.pool.taskQueue_.length) :
    s1.pool.taskSize_ = wrap32 s1.pool.taskQueue_.length := by
  rcases step_cases s s1 e o h with ⟨rfl, rfl⟩ | ⟨sp, rfl, -, hp, -⟩ |
    ⟨sp, s2, rfl, -, hsp, hp, -⟩ | ⟨w, threadId, task, rest, rfl, -, -, hq, rfl⟩ |
    ⟨w, threadId, task, heap, rfl, -, -, rfl⟩ | ⟨w, threadId, rfl, -, -, -, rfl⟩ |
    ⟨w, threadId, rfl, -, -, rfl⟩ | ⟨rfl, rfl⟩
  · exact hsync
  · rw [hp]; exact hsync
  · obtain ⟨s3, hs3, -, -, hq, hts, -⟩ := spawnIfNeeded_frame (s.enqueue sp)
    rw [hsp] at hs3
    cases hs3
    rw [hp, hq, hts]
    simp only [Sys.enqueue, List.length_append, List.length_singleton, Nat.cast_add,
      Nat.cast_one]
    rw [hsync, wrap32_wrap32_add]
  · simp only []
    rw [hsync, hq, sub_eq_add_neg, wrap32_wrap32_add]
    simp
  · exact hsync
  · exact hsync
  · exact hsync
  · exact hsync

/-- From a newly constructed pool, through `start` and any schedule, the
pending-task count is the queue length (as a 32-bit integer). -/
theorem run_sync {U : CppUniverse} (tasks : List (Task U)) (n : Int) (s1 s2 : Sys U)
    (es : List Event) (os : List Obs)
    (hstart : (Sys.init tasks).start n = some s1) (hrun : s1.run es = some (s2, os)) :
    s2.pool.taskSize_ = wrap32 s2.pool.taskQueue_.length := by
  obtain ⟨-, -, -, -, -, -, hq, hts, -⟩ := start_spec _ s1 n hstart
  refine run_induction (fun t : Sys U => t.pool.taskSize_ = wrap32 t.pool.taskQueue_.length)
    (fun a b e o hP hstep => step_sync a b e o hstep hP) s1 s2 es os ?_ hrun
  show s1.pool.taskSize_ = wrap32 s1.pool.taskQueue_.length
  rw [hq, hts]
  simp [Sys.init, ThreadPool.init, wrap32]

/-- Under that invariant a fetch never calls `front()` on an empty queue. -/
theorem fetch_defined {U : CppUniverse} (s : Sys U) (w : Nat)
    (hsync : s.pool.taskSize_ = wrap32 s.pool.taskQueue_.length) :
    s.fetch w ≠ none := by
  rcases fetch_cases s w with hf | ⟨h0, hq, -⟩ | ⟨_, _, _, _, _, _, hf⟩
  · rw [hf]; simp
  · rw [hq] at hsync
    exact absurd hsync h0
  · rw [hf]; simp

/-! ## The theorems at concrete schedules -/

theorem fifo_dequeue_witness :
    ∃ s2 os, exFixedStarted.run exFifoSchedule = some (s2, os) ∧
      acceptedTasks os = [0, 1, 2] ∧
      fetchedTasks os ++ s2.pool.taskQueue_ = acceptedTasks os ∧
      executedTasks os ++ inFlight s2.workers ++ s2.pool.taskQueue_ = acceptedTasks os := by
  have hsome : (exFixedStarted.run exFifoSchedule).isSome = true := by decide
  obtain ⟨⟨s2, os⟩, hrun⟩ := Option.isSome_iff_exists.mp hsome
  have hacc : (exFixedStarted.run exFifoSchedule).map (fun x => acceptedTasks x.2) =
      some [0, 1, 2] := by decide
  rw [hrun] at hacc
  have h := fifo_dequeue exU exFixedStarted s2 exFifoSchedule os hrun (by decide)
  exact ⟨s2, os, hrun, Option.some.inj hacc, h.1, (h.2.2 (by decide) ⟨0, by decide⟩).1⟩

theorem worker_count_bounds_witness :
    ∃ s2 os, exCachedStarted.run exCachedSchedule = some (s2, os) ∧
      s2.pool.poolMode_ = PoolMode.MODE_CACHED ∧
      1 ≤ s2.pool.curThreadSize_ ∧ s2.pool.curThreadSize_ ≤ s2.pool.threadSizeThreshHold_ := by
  have hstart : exCached.start 1 = some exCachedStarted := by decide
  have hsome : (exCachedStarted.run exCachedSchedule).isSome = true := by decide
  obtain ⟨⟨s2, os⟩, hrun⟩ := Option.isSome_iff_exists.mp hsome
  have h := worker_count_bounds exU exCached exCachedStarted 1 hstart (by decide) (by decide)
    exCachedSchedule s2 os hrun
  have hmode : s2.pool.poolMode_ = PoolMode.MODE_CACHED := by rw [h.2.2.2.2]; decide
  exact ⟨s2, os, hrun, hmode, h.2.1 hmode⟩

/-! ## No schedule runs into undefined behaviour -/

theorem construct_wellFormed {U : CppUniverse} (h h1 : Heap U) (task res : Nat)
    (isValid : Bool) (hc : Result.construct h task isValid = some (h1, res))
    (hwf : h.WellFormed) :
    h1.WellFormed ∧ h1.tasks.length = h.tasks.length ∧ task < h.tasks.length := by
  cases ht : h.tasks[task]? with
  | none => simp [Result.construct, ht] at hc
  | some t =>
    have hlt : task < h.tasks.length := by
      by_contra hc1
      rw [List.getElem?_eq_none (by omega)] at ht
      cases ht
    simp only [Result.construct, ht, Option.some.injEq, Prod.mk.injEq] at hc
    obtain ⟨rfl, -⟩ := hc
    refine ⟨?_, by simp, hlt⟩
    intro i t1 r hi hr
    simp only [List.length_append, List.length_singleton]
    by_cases hit : i = task
    · subst hit
      simp only [] at hi
      rw [list_getElem?_set_self _ _ _ _ ht] at hi
      cases hi
      simp only [Option.some.injEq] at hr
      omega
    · simp only [] at hi
      rw [list_getElem?_set_other _ _ _ _ hit] at hi
      have := hwf i t1 r hi hr
      omega

theorem exec_defined {U : CppUniverse} (h : Heap U) (task : Nat)
    (ht : task < h.tasks.length) (hwf : h.WellFormed) :
    ∃ h1, Task.exec h task = some h1 := by
  have htask : h.tasks[task]? = some h.tasks[task] := List.getElem?_eq_getElem ht
  apply Option.isSome_iff_exists.mp
  cases hr : (h.tasks[task]).result_ with
  | none => simp [Task.exec, htask, hr]
  | some r =>
    have hlt := hwf task _ r htask hr
    have hres : h.results[r]? = some h.results[r] := List.getElem?_eq_getElem hlt
    simp [Task.exec, htask, hr, hres]

theorem exec_wellFormed {U : CppUniverse} (h h1 : Heap U) (task : Nat)
    (hx : Task.exec h task = some h1) (hwf : h.WellFormed) :
    h1.WellFormed ∧ h1.tasks = h.tasks := by
  unfold Task.exec at hx
  split at hx
  · cases hx
  · split at hx
    · cases hx; exact ⟨hwf, rfl⟩
    · split at hx
      · cases hx
      · cases hx
        refine ⟨?_, rfl⟩
        intro i t1 r1 hi hr1
        simpa using hwf i t1 r1 hi hr1

theorem busy_of_set (ws : List Worker) (w w1 : Nat) (x : Worker) (threadId : Int) (task : Nat)
    (h : (ws.set w x)[w1]? = some ⟨threadId, WorkerState.busy task⟩) :
    x = ⟨threadId, WorkerState.busy task⟩ ∨ ws[w1]? = some ⟨threadId, WorkerState.busy task⟩ := by
  by_cases hw : w1 = w
  · subst hw
    rw [List.getElem?_set] at h
    simp only [if_true] at h
    split at h
    · left; exact Option.some.inj h
    · cases h
  · right
    rwa [list_getElem?_set_other _ _ _ _ hw] at h

theorem busy_of_append_idle (ws : List Worker) (w1 : Nat) (t : Thread) (threadId : Int)
    (task : Nat) (h : (ws ++ [t.start])[w1]? = some ⟨threadId, WorkerState.busy task⟩) :
    ws[w1]? = some ⟨threadId, WorkerState.busy task⟩ := by
  by_cases hlt : w1 < ws.length
  · rwa [List.getElem?_append_left hlt] at h
  · rw [List.getElem?_append_right (by omega)] at h
    cases hk : w1 - ws.length with
    | zero => rw [hk] at h; simp [Thread.start] at h
    | succ k => rw [hk] at h; simp at h

/-- Every step keeps a safe state safe and creates or frees no task. -/
theorem step_preserves_safe {U : CppUniverse} (s s1 : Sys U) (e : Event) (o : Obs)
    (h : s.step e = some (s1, o)) (hs : s.Safe) :
    s1.Safe ∧ s1.heap.tasks.length = s.heap.tasks.length := by
  have hsync1 := step_sync s s1 e o h hs.1
  obtain ⟨hsync, hwf, hq, hb⟩ := hs
  rcases step_cases s s1 e o h with ⟨-, rfl⟩ | ⟨sp, -, -, hp, hws, -, -, hc⟩ |
    ⟨sp, s2, -, -, hsp, hp, hws, -, -, hc⟩ | ⟨w, threadId, task, rest, -, -, -, hq0, rfl⟩ |
    ⟨w, threadId, task, heap, -, hw, hx, rfl⟩ | ⟨w, threadId, -, -, -, -, rfl⟩ |
    ⟨w, threadId, -, -, -, rfl⟩ | ⟨-, rfl⟩
  · exact ⟨⟨hsync, hwf, hq, hb⟩, rfl⟩
  · obtain ⟨hwf1, hlen, -⟩ := construct_wellFormed _ _ _ _ _ hc hwf
    refine ⟨⟨hsync1, hwf1, ?_, ?_⟩, hlen⟩
    · intro t ht; rw [hlen]; rw [hp] at ht; exact hq t ht
    · intro w threadId t hw; rw [hlen]; rw [hws] at hw; exact hb w threadId t hw
  · obtain ⟨hwf1, hlen, hlt⟩ := construct_wellFormed _ _ _ _ _ hc hwf
    refine ⟨⟨hsync1, hwf1, ?_, ?_⟩, hlen⟩
    · intro t ht
      rw [hlen]; rw [hp] at ht
      have hmem : t ∈ s.pool.taskQueue_ ++ [sp] := by
        rcases spawnIfNeeded_inv _ _ hsp with rfl | ⟨-, -, -, th, rfl⟩
        · exact ht
        · exact ht
      rcases List.mem_append.mp hmem with hm | hm
      · exact hq t hm
      · rw [List.mem_singleton.mp hm]; exact hlt
    · intro w threadId t hw
      rw [hlen]; rw [hws] at hw
      rcases spawnIfNeeded_inv _ _ hsp with rfl | ⟨-, -, -, th, rfl⟩
      · exact hb w threadId t hw
      · exact hb w threadId t (busy_of_append_idle _ _ _ _ _ hw)
  · refine ⟨⟨hsync1, hwf, ?_, ?_⟩, rfl⟩
    · intro t ht
      exact hq t (by rw [hq0]; exact List.mem_cons_of_mem _ ht)
    · intro w2 threadId2 t hw2
      rcases busy_of_set _ _ _ _ _ _ hw2 with hx | hx
      · cases hx
        exact hq task (by rw [hq0]; exact List.mem_cons_self _ _)
      · exact hb w2 threadId2 t hx
  · obtain ⟨hwf1, htasks⟩ := exec_wellFormed _ _ _ hx hwf
    refine ⟨⟨hsync1, hwf1, ?_, ?_⟩, by simp only []; rw [htasks]⟩
    · intro t ht; simp only []; rw [htasks]; exact hq t ht
    · intro w2 threadId2 t hw2
      simp only []; rw [htasks]
      rcases busy_of_set _ _ _ _ _ _ hw2 with hx | hx
      · cases hx
      · exact hb w2 threadId2 t hx
  · refine ⟨⟨hsync1, hwf, hq, ?_⟩, rfl⟩
    intro w2 threadId2 t hw2
    rcases busy_of_set _ _ _ _ _ _ hw2 with hx | hx
    · cases hx
    · exact hb w2 threadId2 t hx
  · refine ⟨⟨hsync1, hwf, hq, ?_⟩, rfl⟩
    intro w2 threadId2 t hw2
    rcases busy_of_set _ _ _ _ _ _ hw2 with hx | hx
    · cases hx
    · exact hb w2 threadId2 t hx
  · exact ⟨⟨hsync, hwf, hq, hb⟩, rfl⟩

/-- A safe state can take every step: no null or dangling dereference, no
`front()` on an empty queue. -/
theorem step_defined {U : CppUniverse} (s : Sys U) (e : Event) (hs : s.Safe)
    (he : e.valid s.heap.tasks.length) : ∃ s1 o, s.step e = some (s1, o) := by
  obtain ⟨hsync, hwf, hq, hb⟩ := hs
  have hsome : (s.step e).isSome = true := by
    cases e with
    | submit task =>
      have hsp : task < s.heap.tasks.length := he
      cases hfull : s.pool.notFull with
      | false =>
        obtain ⟨s1, r, h1, -⟩ := submitTask_full s task hsp hfull
        simp [Sys.step, h1]
      | true =>
        obtain ⟨s1, r, h1, -⟩ := submitTask_room s task hsp hfull
        simp [Sys.step, h1]
    | fetch w =>
      rcases fetch_cases s w with hf | ⟨h0, hq0, -⟩ | ⟨_, _, _, _, _, _, hf⟩
      · simp [Sys.step, hf]
      · rw [hq0] at hsync
        exact absurd hsync h0
      · simp [Sys.step, hf]
    | complete w =>
      rcases complete_cases s w with hf | hf | ⟨_, _, _, _, _, hf⟩
      · simp [Sys.step, hf]
      · exfalso
        unfold Sys.complete at hf
        split at hf
        · rename_i threadId task hw
          obtain ⟨h1, hx⟩ := exec_defined s.heap task (hb w threadId task hw) hwf
          simp [hx] at hf
        · cases hf
      · simp [Sys.step, hf]
    | waitTimeout w dur => rfl
    | wakeup w => rfl
    | shutdown => rfl
  obtain ⟨⟨s1, o⟩, h1⟩ := Option.isSome_iff_exists.mp hsome
  exact ⟨s1, o, h1⟩

/-- Every schedule whose submissions name task objects runs to its end from a
safe state, and ends in a safe state. -/
theorem run_defined {U : CppUniverse} (s : Sys U) (es : List Event) (hs : s.Safe)
    (hes : ∀ e ∈ es, e.valid s.heap.tasks.length) :
    ∃ s2 os, s.run es = some (s2, os) ∧ s2.Safe := by
  induction es generalizing s with
  | nil => exact ⟨s, [], rfl, hs⟩
  | cons e es ih =>
    obtain ⟨s1, o, hstep⟩ := step_defined s e hs (hes e (List.mem_cons_self _ _))
    obtain ⟨hs1, hlen⟩ := step_preserves_safe s s1 e o hstep hs
    obtain ⟨s2, os, hrun, hs2⟩ := ih s1 hs1
      (fun e1 he1 => by rw [hlen]; exact hes e1 (List.mem_cons_of_mem _ he1))
    exact ⟨s2, o :: os, by simp [Sys.run, hstep, hrun], hs2⟩

theorem startLaunch_busy (threads_ : ThreadMap) (k : Nat) :
    ∀ (i : Nat) (ws : List Worker) (idle : Int) (ws1 : List Worker) (idle1 : Int),
      Sys.startLaunch threads_ i k (ws, idle) = some (ws1, idle1) →
      ∀ (w : Nat) (threadId : Int) (task : Nat),
        ws1[w]? = some ⟨threadId, WorkerState.busy task⟩ →
        ws[w]? = some ⟨threadId, WorkerState.busy task⟩ := by
  induction k with
  | zero =>
    intro i ws idle ws1 idle1 h w threadId task hw
    simp only [Sys.startLaunch, Option.some.injEq, Prod.mk.injEq] at h
    rw [h.1]; exact hw
  | succ k ih =>
    intro i ws idle ws1 idle1 h w threadId task hw
    simp only [Sys.startLaunch] at h
    split at h
    · cases h
    · rename_i t ht
      exact busy_of_append_idle _ _ _ _ _ (ih _ _ _ _ _ h w threadId task hw)

/-- The state `start` leaves behind on a newly constructed pool is safe. -/
theorem start_safe {U : CppUniverse} (tasks : List (Task U)) (n : Int) (s1 : Sys U)
    (htasks : ∀ t ∈ tasks, t.result_ = none)
    (hstart : (Sys.init tasks).start n = some s1) :
    s1.Safe ∧ s1.heap.tasks.length = tasks.length := by
  obtain ⟨-, -, -, -, -, -, hq, hts, -⟩ := start_spec _ s1 n hstart
  have hheap : s1.heap = (Sys.init tasks).heap := by
    unfold Sys.start at hstart
    split at hstart
    · cases hstart
    · simp only [] at hstart
      split at hstart
      · cases hstart
      · cases hstart; rfl
  have hws : ∀ (w : Nat) (threadId : Int) (task : Nat),
      s1.workers[w]? ≠ some ⟨threadId, WorkerState.busy task⟩ := by
    intro w threadId task hw
    unfold Sys.start at hstart
    split at hstart
    · cases hstart
    · simp only [] at hstart
      split at hstart
      · cases hstart
      · rename_i workers idle hl
        cases hstart
        have := startLaunch_busy _ _ _ _ _ _ _ hl w threadId task hw
        simp [Sys.init] at this
  refine ⟨⟨?_, ?_, ?_, ?_⟩, by rw [hheap]; rfl⟩
  · rw [hq, hts]; simp [Sys.init, ThreadPool.init, wrap32]
  · rw [hheap]
    intro i t r hi hr
    have := htasks t (List.getElem?_mem hi)
    rw [this] at hr; cases hr
  · rw [hq]; intro t ht; simp [Sys.init, ThreadPool.init] at ht
  · intro w threadId task hw
    exact absurd hw (hws w threadId task)

/-! ## Consequences of the constant thread id -/

theorem startCreate_present (generateId_ : Int) (k : Nat) (threads_ : ThreadMap)
    (h : (threads_.lookup generateId_).isSome = true) :
    Sys.startCreate generateId_ k threads_ = threads_ := by
  induction k with
  | zero => rfl
  | succ k ih =>
    simp only [Sys.startCreate, Thread.getId, Thread.construct, ThreadMap.emplace, h, if_true]
    exact ih

theorem startCreate_fresh (k : Nat) :
    Sys.startCreate 0 (k + 1) [] = [((0 : Int), (⟨0⟩ : Thread))] := by
  simp only [Sys.startCreate, Thread.getId, Thread.construct, ThreadMap.emplace]
  exact startCreate_present 0 k _ (by decide)

/-- On a newly constructed pool, `start(n)` with `n >= 2` registers a single
worker and then dereferences the null pointer `threads_[1]`. -/
theorem start_fresh_undefined {U : CppUniverse} (tasks : List (Task U)) (n : Int)
    (hn : 2 ≤ n) : (Sys.init tasks).start n = none := by
  obtain ⟨k, hk⟩ : ∃ k : Nat, n.toNat = k + 2 := ⟨n.toNat - 2, by omega⟩
  have hneg : ¬ n < 0 := by omega
  simp only [Sys.start, hneg, if_false, hk, Sys.init, ThreadPool.init]
  rw [show k + 2 = (k + 1) + 1 from rfl, startCreate_fresh (k + 1)]
  simp [Sys.startLaunch, ThreadMap.mapAt, List.lookup]

/-- An accepted submission leaves the task bound to the result it returns: the
task's `result_` is the address of that result, which is valid, holds no value
and has handshake counter 0. -/
theorem submitTask_binds {U : CppUniverse} (s s1 : Sys U) (sp res : Nat)
    (hroom : s.pool.notFull = true) (h : s.submitTask sp = some (s1, res)) :
    ∃ t, s1.heap.tasks[sp]? = some t ∧ t.result_ = some res ∧
      s1.heap.results[res]? = some ⟨Any.default, ⟨0⟩, sp, true⟩ := by
  rcases submitTask_cases s sp with hn | ⟨hfull, -⟩ | ⟨-, s2, h1, -, hs, hr, hc⟩
  · rw [hn] at h; cases h
  · rw [hfull] at hroom; cases hroom
  · rw [hs] at h
    simp only [Option.some.injEq, Prod.mk.injEq] at h
    obtain ⟨rfl, rfl⟩ := h
    cases ht : s.heap.tasks[sp]? with
    | none => simp [Result.construct, ht] at hc
    | some t =>
      simp only [Result.construct, ht, Option.some.injEq, Prod.mk.injEq] at hc
      obtain ⟨rfl, -⟩ := hc
      exact ⟨_, list_getElem?_set_self _ _ _ _ ht, rfl, hr⟩

end ThreadPoolModel
